import Mathlib

/-!
# Replicant command-line client (`tools/cli.cc`)

A shallow embedding of `main` of `tools/cli.cc` and theorems about the
request/completion protocol it runs against `replicant_client`.

The client library (`client/replicant.h`) is not part of the sources, so the
library object is a record of functions over an arbitrary state type `σ`:
every behaviour the library could show is one such record.  Out-parameters
(`&re`, `&output`, `&output_sz`, `&le`) are modelled as optional stores
returned by the call; the driver keeps the C++ locals and applies the stores.

The locals `output` and `output_sz` are declared without a value (lines
134-135) and read at line 169 with no test of their own, so the model carries
the bytes they denote when nothing has been stored into them.

The run of `main` is a trace of events (library calls with their observed
results, writes to `std::cout` and `std::cerr`) and an exit status.
-/

namespace Replicant

/-- A `char`. -/
abbrev Byte := Fin 256

/-- The newline character written by `std::endl` and consumed by `std::getline`. -/
def NL : Byte := 10

/-- The terminating NUL of `s.c_str()`. -/
def NUL : Byte := 0

/-- Modelled from the spec: the enumeration `replicant_returncode` is declared in
`client/replicant.h`, which is not among the sources.  `cli.cc` names two of its
enumerators, `REPLICANT_SUCCESS` and `REPLICANT_GARBAGE`; the spec calls the latter
the "uninitialized" sentinel, distinct from any real outcome.  Every other
enumerator is `other code`. -/
inductive replicant_returncode
  | REPLICANT_SUCCESS
  | REPLICANT_GARBAGE
  | other (code : Nat)
  deriving DecidableEq, Repr

open replicant_returncode

/-- The constant `EXIT_SUCCESS` of `<cstdlib>`. -/
def EXIT_SUCCESS : Nat := 0

/-- The constant `EXIT_FAILURE` of `<cstdlib>`. -/
def EXIT_FAILURE : Nat := 1

/-- What a call can throw.  `main` catches `po6::error` first, then any other
`std::exception` (lines 185-194); the string is `e.what()`.  An object of any
other type (`other_object`) is caught by neither clause. -/
inductive Exn
  | po6_error (what : String)
  | std_exception (what : String)
  | other_object
  deriving DecidableEq, Repr

/-- A call either returns a value or leaves by an exception. -/
inductive Ret (α : Type)
  | value (a : α)
  | thrown (e : Exn)

/-- What a library call stores through the pointers `&re` (status) and
`&output`/`&output_sz` registered by `send`.  `none` means the slot is left as it
was.  The pair (`output`, `output_sz`) is modelled by the bytes of the region it
denotes. -/
structure Stores where
  status : Option replicant_returncode
  output : Option (List Byte)
  deriving DecidableEq, Repr

/-- The result of `r.send(...)`: the returned id, the stores made during the call,
and the library's state afterwards. -/
structure SendRet (σ : Type) where
  rid : Int
  stores : Stores
  next : σ

/-- The result of `r.loop(timeout, &le)`: the returned id, the store into `le`
(if any), the stores into the slots registered by `send`, and the library's state
afterwards. -/
structure LoopRet (σ : Type) where
  lid : Int
  le : Option replicant_returncode
  stores : Stores
  next : σ

/-- The class `replicant_client` as `cli.cc` uses it: the constructor (line 125),
`send` (137), `loop` (147), `disconnect` (174) and `last_error_desc`.  The
host and port handed to the constructor come from `tools/common.h`, which is not
among the sources, so the constructor's result is a field. -/
structure replicant_client (σ : Type) where
  init : Ret σ
  send : σ → String → String → List Byte → Nat → Ret (SendRet σ)
  loop : σ → Int → Ret (LoopRet σ)
  disconnect : σ → Ret (replicant_returncode × σ)
  last_error_desc : σ → String

/-- The lines `main` writes to `std::cerr`, by their fixed text:
* `could_not_send d re`: "could not send request: " d " (" re ")" (142-143)
* `could_not_loop d le`: "could not loop: " d " (" le ")" (151-152)
* `internal_error`: "could not process request: internal error" (158)
* `could_not_process d re`: "could not process request: " d " (" re ")" (164-165)
* `error_disconnecting d e`: "error disconnecting from cluster: " d " (" e ")" (178-179)
* `system_error w`: "system error: " w (187)
* `error w`: "error: " w (192) -/
inductive Diagnostic
  | could_not_send (desc : String) (re : replicant_returncode)
  | could_not_loop (desc : String) (le : replicant_returncode)
  | internal_error
  | could_not_process (desc : String) (re : replicant_returncode)
  | error_disconnecting (desc : String) (e : replicant_returncode)
  | system_error (what : String)
  | error (what : String)
  deriving DecidableEq, Repr

/-- The observable actions of a run, in program order.  A library call is
recorded with its arguments, its return value and the values of the driver's
locals it may have stored into, as they stand when the call returns.
* `send object function data data_sz rid re`: line 137 returned `rid`
* `send_throw object function data data_sz e`: line 137 left by exception `e`
* `loop timeout lid le re output`: line 147 returned `lid`; `output` is `none`
  when no call has stored into `output`/`output_sz` for this line
* `loop_throw timeout e`: line 147 left by exception `e`
* `copy_output bytes`: `std::string out(output, output_sz)` (169)
* `cout bytes`: bytes written to `std::cout` (170)
* `cerr d`: a line written to `std::cerr`
* `destroy_output bytes`: `replicant_destroy_output(output, output_sz)` (171)
* `disconnect e`: line 174 returned `e`
* `disconnect_throw e`: line 174 left by exception `e` -/
inductive Event
  | send (object function : String) (data : List Byte) (data_sz : Nat)
      (rid : Int) (re : replicant_returncode)
  | send_throw (object function : String) (data : List Byte) (data_sz : Nat) (e : Exn)
  | loop (timeout : Int) (lid : Int) (le re : replicant_returncode)
      (output : Option (List Byte))
  | loop_throw (timeout : Int) (e : Exn)
  | copy_output (bytes : List Byte)
  | cout (bytes : List Byte)
  | cerr (d : Diagnostic)
  | destroy_output (bytes : List Byte)
  | disconnect (e : replicant_returncode)
  | disconnect_throw (e : Exn)
  deriving DecidableEq, Repr

/-- How a piece of the `try` block leaves: it falls through to the next
statement (`continue`), executes `return code`, or throws.  `continue` carries
the library's state and the bytes that `output`/`output_sz` are left denoting:
the locals of the next iteration take the same place on the stack and are not
initialised, so they show these bytes until a call stores into them.  (The region
has been released by then; the model takes it to hold the same bytes still.) -/
inductive Step (σ : Type)
  | continue (st : σ) (output : List Byte)
  | return (code : Nat)
  | throw (e : Exn)

/-- The default of `_object` (line 44). -/
def _object : String := "echo"

/-- The default of `_function` (line 45). -/
def _function : String := "func"

/-- The body of the `while` loop, lines 130-171, for the line `s` read by
`std::getline`, with the library in state `st`.  `stale` is what the
uninitialised `output`/`output_sz` (lines 134-135) denote when the body is
entered.  Line 169 reads the locals whether or not a call has stored into them:
the stored bytes when there are some, `stale` otherwise. -/
def loop_body {σ : Type} (r : replicant_client σ) (object function : String)
    (st : σ) (stale : List Byte) (s : List Byte) : List Event × Step σ :=
  let re₀ := REPLICANT_GARBAGE
  let le₀ := REPLICANT_GARBAGE
  let output₀ : Option (List Byte) := none
  match r.send st object function (s ++ [NUL]) (s.length + 1) with
  | .thrown e =>
      ([Event.send_throw object function (s ++ [NUL]) (s.length + 1) e], Step.throw e)
  | .value a =>
      let re₁ := a.stores.status.getD re₀
      let output₁ := a.stores.output.orElse (fun _ => output₀)
      let ev_send := Event.send object function (s ++ [NUL]) (s.length + 1) a.rid re₁
      if a.rid < 0 then
        ([ev_send, Event.cerr (Diagnostic.could_not_send (r.last_error_desc a.next) re₁)],
          Step.return EXIT_FAILURE)
      else
        match r.loop a.next (-1) with
        | .thrown e => ([ev_send, Event.loop_throw (-1) e], Step.throw e)
        | .value b =>
            let le := b.le.getD le₀
            let re := b.stores.status.getD re₁
            let output := b.stores.output.orElse (fun _ => output₁)
            let ev_loop := Event.loop (-1) b.lid le re output
            if b.lid < 0 then
              ([ev_send, ev_loop,
                Event.cerr (Diagnostic.could_not_loop (r.last_error_desc b.next) le)],
                Step.return EXIT_FAILURE)
            else if a.rid ≠ b.lid then
              ([ev_send, ev_loop, Event.cerr Diagnostic.internal_error],
                Step.return EXIT_FAILURE)
            else if re ≠ REPLICANT_SUCCESS then
              ([ev_send, ev_loop,
                Event.cerr (Diagnostic.could_not_process (r.last_error_desc b.next) re)],
                Step.return EXIT_FAILURE)
            else
              let out := output.getD stale
              ([ev_send, ev_loop, Event.copy_output out, Event.cout (out ++ [NL]),
                Event.destroy_output out], Step.continue b.next out)

/-- The loop `while (std::getline(std::cin, s)) { ... }` (lines 128-172) over the
lines that the successive `getline` calls yield. -/
def while_getline {σ : Type} (r : replicant_client σ) (object function : String) :
    σ → List Byte → List (List Byte) → List Event × Step σ
  | st, stale, [] => ([], Step.continue st stale)
  | st, stale, s :: rest =>
      match loop_body r object function st stale s with
      | (ev, Step.continue st' stale') =>
          ((ev ++ (while_getline r object function st' stale' rest).1),
            (while_getline r object function st' stale' rest).2)
      | (ev, k) => (ev, k)

/-- The lines successive `std::getline(std::cin, s)` calls yield on the input
`cin`: a line ends at a newline (extracted, not stored) or at end of input;
at end of input with nothing extracted `getline` fails and the loop ends.
`acc` holds the characters of the line being read. -/
def getlines_from : List Byte → List Byte → List (List Byte)
  | acc, [] => if acc = [] then [] else [acc]
  | acc, c :: cs => if c = NL then acc :: getlines_from [] cs else getlines_from (acc ++ [c]) cs

/-- The lines of standard input. -/
def getlines (cin : List Byte) : List (List Byte) := getlines_from [] cin

/-- The outcome of a run of `main`: the trace of events and the exit status
(`none` when `main` does not return: an exception that no clause catches leaves
`main` and the process is ended by `std::terminate`). -/
structure Run where
  trace : List Event
  status : Option Nat
  deriving DecidableEq, Repr

/-- The two `catch` clauses, lines 185-194; an object they do not catch leaves
`main`. -/
def handler (trace : List Event) : Exn → Run
  | Exn.po6_error w => ⟨trace ++ [Event.cerr (Diagnostic.system_error w)], some EXIT_FAILURE⟩
  | Exn.std_exception w => ⟨trace ++ [Event.cerr (Diagnostic.error w)], some EXIT_FAILURE⟩
  | Exn.other_object => ⟨trace, none⟩

/-- Lines 174-183 and the `catch` clauses: what follows the `while` loop once it
has left with `k` after the events `tr`. -/
def after_loop {σ : Type} (r : replicant_client σ) (tr : List Event) : Step σ → Run
  | Step.continue st _ =>
      match r.disconnect st with
      | .thrown e => handler (tr ++ [Event.disconnect_throw e]) e
      | .value (e, st') =>
          if e ≠ REPLICANT_SUCCESS then
            ⟨tr ++ [Event.disconnect e,
              Event.cerr (Diagnostic.error_disconnecting (r.last_error_desc st') e)],
              some EXIT_FAILURE⟩
          else ⟨tr ++ [Event.disconnect e], some EXIT_SUCCESS⟩
  | Step.return code => ⟨tr, some code⟩
  | Step.throw e => handler tr e

/-- The `try` block of `main`, lines 123-194, with `_object` and `_function` as
option parsing left them and the lines of standard input; `stale` is what the
uninitialised `output`/`output_sz` denote in the first iteration. -/
def try_block {σ : Type} (r : replicant_client σ) (object function : String)
    (lines : List (List Byte)) (stale : List Byte) : Run :=
  match r.init with
  | .thrown e => handler [] e
  | .value st₀ =>
      after_loop r (while_getline r object function st₀ stale lines).1
        (while_getline r object function st₀ stale lines).2

/-- The function `main` for a valid command line without extra arguments: `o` and
`f` are the arguments of `--object` and `--function` when given
(`POPT_ARG_STRING` stores them into `_object` and `_function`, lines 47-55),
`cin` is standard input, and `stale` is what the uninitialised
`output`/`output_sz` denote in the first iteration of the loop. -/
def main {σ : Type} (r : replicant_client σ) (o f : Option String) (cin : List Byte)
    (stale : List Byte) : Run :=
  try_block r (o.getD _object) (f.getD _function) (getlines cin) stale

/-! ## The driver's locals after the calls -/

/-- The value of `re` when `send` has returned: `REPLICANT_GARBAGE` (line 130)
unless `send` stored a status. -/
def re_after_send {σ : Type} (a : SendRet σ) : replicant_returncode :=
  a.stores.status.getD REPLICANT_GARBAGE

/-- The value of `re` when `loop` has returned. -/
def re_after_loop {σ : Type} (a : SendRet σ) (b : LoopRet σ) : replicant_returncode :=
  b.stores.status.getD (re_after_send a)

/-- The value of `le` when `loop` has returned: `REPLICANT_GARBAGE` (line 131)
unless `loop` stored a status. -/
def le_after_loop {σ : Type} (b : LoopRet σ) : replicant_returncode :=
  b.le.getD REPLICANT_GARBAGE

/-- The bytes stored into `output`/`output_sz` for this line when `loop` has
returned; `none` when no call has stored into them (lines 134-135 declare them
without a value, so they then still denote what they did on entry). -/
def output_after_loop {σ : Type} (a : SendRet σ) (b : LoopRet σ) : Option (List Byte) :=
  b.stores.output.orElse (fun _ => a.stores.output.orElse (fun _ => none))

/-! ## The paths through the loop body and the shape of a trace -/

/-- The seven paths through the loop body: every execution of it takes exactly
one of them. -/
inductive Path {σ : Type} (r : replicant_client σ) (object function : String) (st : σ)
    (s : List Byte) : Prop
  | send_throw (e : Exn)
      (hsend : r.send st object function (s ++ [NUL]) (s.length + 1) = Ret.thrown e)
  | send_failed (a : SendRet σ)
      (hsend : r.send st object function (s ++ [NUL]) (s.length + 1) = Ret.value a)
      (hneg : a.rid < 0)
  | loop_throw (a : SendRet σ) (e : Exn)
      (hsend : r.send st object function (s ++ [NUL]) (s.length + 1) = Ret.value a)
      (hadm : 0 ≤ a.rid) (hloop : r.loop a.next (-1) = Ret.thrown e)
  | loop_failed (a : SendRet σ) (b : LoopRet σ)
      (hsend : r.send st object function (s ++ [NUL]) (s.length + 1) = Ret.value a)
      (hadm : 0 ≤ a.rid) (hloop : r.loop a.next (-1) = Ret.value b) (hneg : b.lid < 0)
  | mismatch (a : SendRet σ) (b : LoopRet σ)
      (hsend : r.send st object function (s ++ [NUL]) (s.length + 1) = Ret.value a)
      (hadm : 0 ≤ a.rid) (hloop : r.loop a.next (-1) = Ret.value b) (hlid : 0 ≤ b.lid)
      (hne : b.lid ≠ a.rid)
  | remote_failed (a : SendRet σ) (b : LoopRet σ)
      (hsend : r.send st object function (s ++ [NUL]) (s.length + 1) = Ret.value a)
      (hadm : 0 ≤ a.rid) (hloop : r.loop a.next (-1) = Ret.value b)
      (heq : b.lid = a.rid) (hre : re_after_loop a b ≠ REPLICANT_SUCCESS)
  | success (a : SendRet σ) (b : LoopRet σ)
      (hsend : r.send st object function (s ++ [NUL]) (s.length + 1) = Ret.value a)
      (hadm : 0 ≤ a.rid) (hloop : r.loop a.next (-1) = Ret.value b)
      (heq : b.lid = a.rid) (hre : re_after_loop a b = REPLICANT_SUCCESS)

/-- The traces `main` can produce: any number of lines that pass all four checks,
each a block of five events, and then the events of the way the run ends.  In a
block, `output` is what was stored for the line and `stale` what the locals
denoted on entry: the buffer read, printed and released is `output.getD stale`. -/
inductive Shape : List Event → Prop
  | block (o f : String) (d : List Byte) (n : Nat) (rid : Int) (re le : replicant_returncode)
      (output : Option (List Byte)) (stale : List Byte) (w : List Event) (hadm : 0 ≤ rid)
      (hw : Shape w) :
      Shape (Event.send o f d n rid re :: Event.loop (-1) rid le REPLICANT_SUCCESS output ::
        Event.copy_output (output.getD stale) :: Event.cout (output.getD stale ++ [NL]) ::
        Event.destroy_output (output.getD stale) :: w)
  | init_throw (dg : Diagnostic) : Shape [Event.cerr dg]
  | init_uncaught : Shape []
  | eof : Shape [Event.disconnect REPLICANT_SUCCESS]
  | eof_failed (e : replicant_returncode) (dg : Diagnostic) :
      Shape [Event.disconnect e, Event.cerr dg]
  | eof_throw (e : Exn) (dg : Diagnostic) : Shape [Event.disconnect_throw e, Event.cerr dg]
  | eof_uncaught (e : Exn) : Shape [Event.disconnect_throw e]
  | send_throw (o f : String) (d : List Byte) (n : Nat) (e : Exn) (dg : Diagnostic) :
      Shape [Event.send_throw o f d n e, Event.cerr dg]
  | send_uncaught (o f : String) (d : List Byte) (n : Nat) (e : Exn) :
      Shape [Event.send_throw o f d n e]
  | send_failed (o f : String) (d : List Byte) (n : Nat) (rid : Int)
      (re : replicant_returncode) (dg : Diagnostic) (hneg : rid < 0) :
      Shape [Event.send o f d n rid re, Event.cerr dg]
  | loop_throw (o f : String) (d : List Byte) (n : Nat) (rid : Int)
      (re : replicant_returncode) (e : Exn) (dg : Diagnostic) (hadm : 0 ≤ rid) :
      Shape [Event.send o f d n rid re, Event.loop_throw (-1) e, Event.cerr dg]
  | loop_uncaught (o f : String) (d : List Byte) (n : Nat) (rid : Int)
      (re : replicant_returncode) (e : Exn) (hadm : 0 ≤ rid) :
      Shape [Event.send o f d n rid re, Event.loop_throw (-1) e]
  | loop_failed (o f : String) (d : List Byte) (n : Nat) (rid : Int)
      (re : replicant_returncode) (lid : Int) (le re' : replicant_returncode)
      (output : Option (List Byte)) (dg : Diagnostic) (hadm : 0 ≤ rid)
      (hfail : lid ≠ rid ∨ re' ≠ REPLICANT_SUCCESS) :
      Shape [Event.send o f d n rid re, Event.loop (-1) lid le re' output, Event.cerr dg]

/-! ## Replacing the status reported by `loop` -/

/-- The library `r` with the status that `loop` stores into `le` replaced by
`x st timeout` whenever `loop` returns a non-negative id; all else is as in `r`. -/
def with_le {σ : Type} (x : σ → Int → Option replicant_returncode) (r : replicant_client σ) :
    replicant_client σ :=
  { r with
    loop := fun st t =>
      match r.loop st t with
      | Ret.value b => Ret.value (if 0 ≤ b.lid then { b with le := x st t } else b)
      | Ret.thrown e => Ret.thrown e }

/-- An event without the status `le` of a call of `loop` that returned a
non-negative id. -/
def forget_le : Event → Event
  | Event.loop t lid le re out =>
      if 0 ≤ lid then Event.loop t lid REPLICANT_GARBAGE re out else Event.loop t lid le re out
  | e => e

/-! ## Projections of a trace -/

/-- The bytes written to `std::cout`, in order. -/
def stdout : List Event → List Byte
  | [] => []
  | Event.cout bytes :: t => bytes ++ stdout t
  | _ :: t => stdout t

/-- The lines written to `std::cerr`, in order. -/
def stderr : List Event → List Diagnostic
  | [] => []
  | Event.cerr d :: t => d :: stderr t
  | _ :: t => stderr t

/-- The buffers handed to `replicant_destroy_output`, in order. -/
def released : List Event → List (List Byte)
  | [] => []
  | Event.destroy_output bytes :: t => bytes :: released t
  | _ :: t => released t

/-- The number of writes to `std::cout` (one per printed line). -/
def printed : List Event → Nat
  | [] => 0
  | Event.cout _ :: t => printed t + 1
  | _ :: t => printed t

/-- The result buffers of the completions `loop` delivered, in order. -/
def delivered : List Event → List (List Byte)
  | [] => []
  | Event.loop _ _ _ _ (some out) :: t => out :: delivered t
  | _ :: t => delivered t

/-- The arguments (object, function, data, data_sz) of the calls of `send`, in
order, whether the call returned or threw. -/
def submitted : List Event → List (String × String × List Byte × Nat)
  | [] => []
  | Event.send o f d n _ _ :: t => (o, f, d, n) :: submitted t
  | Event.send_throw o f d n _ :: t => (o, f, d, n) :: submitted t
  | _ :: t => submitted t

/-- The timeout arguments of the calls of `loop`, in order, whether the call
returned or threw. -/
def loop_timeouts : List Event → List Int
  | [] => []
  | Event.loop t _ _ _ _ :: r => t :: loop_timeouts r
  | Event.loop_throw t _ :: r => t :: loop_timeouts r
  | _ :: r => loop_timeouts r

/-- A call of `loop`. -/
def is_loop : Event → Bool
  | Event.loop _ _ _ _ _ => true
  | Event.loop_throw _ _ => true
  | _ => false

/-- A call of `disconnect`. -/
def is_disconnect : Event → Bool
  | Event.disconnect _ => true
  | Event.disconnect_throw _ => true
  | _ => false

/-- A use of a result buffer: reading it, printing its copy or releasing it. -/
def touches_buffer : Event → Bool
  | Event.copy_output _ => true
  | Event.cout _ => true
  | Event.destroy_output _ => true
  | _ => false

/-- The run has read the line `s` with the library in state `st` and the
uninitialised `output`/`output_sz` denoting `stale`, after the events `tr`; `post`
are the lines that follow `s` on standard input, and `stale₀` is what the locals
denoted in the first iteration. -/
def reads_line {σ : Type} (r : replicant_client σ) (o f : Option String) (cin : List Byte)
    (stale₀ : List Byte) (tr : List Event) (st : σ) (stale : List Byte) (s : List Byte)
    (post : List (List Byte)) : Prop :=
  ∃ st₀ pre, r.init = Ret.value st₀ ∧ getlines cin = pre ++ s :: post ∧
    while_getline r (o.getD _object) (f.getD _function) st₀ stale₀ pre =
      (tr, Step.continue st stale)

/-! ## Runs in which every completion brings its buffer -/

/-- The success of the call for the line `s`, as the steps of `execute` state it:
`send` admits the call (id not negative), `loop`, called with timeout `-1`,
returns that id, and the status of the request is `REPLICANT_SUCCESS`.  Gives the
result buffer stored for the line (if any) and the library's state afterwards, and
`none` when a step fails.  Only the library's answers enter, not the driver. -/
def call_succeeds {σ : Type} (r : replicant_client σ) (object function : String) (st : σ)
    (s : List Byte) : Option (Option (List Byte) × σ) :=
  match r.send st object function (s ++ [NUL]) (s.length + 1) with
  | Ret.thrown _ => none
  | Ret.value a =>
      if 0 ≤ a.rid then
        match r.loop a.next (-1) with
        | Ret.thrown _ => none
        | Ret.value b =>
            if b.lid = a.rid ∧ re_after_loop a b = REPLICANT_SUCCESS then
              some (output_after_loop a b, b.next)
            else none
      else none

/-- The calls for the lines `lines`, one after the other from the state `st`, all
succeed: gives the result buffers stored, in order, and the library's final state;
`none` as soon as one call fails. -/
def all_succeed {σ : Type} (r : replicant_client σ) (object function : String) :
    σ → List (List Byte) → Option (List (Option (List Byte)) × σ)
  | st, [] => some ([], st)
  | st, s :: rest =>
      match call_succeeds r object function st s with
      | none => none
      | some (output, st') =>
          match all_succeed r object function st' rest with
          | none => none
          | some (outputs, st'') => some (output :: outputs, st'')

/-! ## A scripted library, for concrete runs -/

/-- The state of the scripted library: the results its next calls of `send` and of
`loop` give, the result of `disconnect`, and the text of `last_error_desc`. -/
structure Script where
  sends : List (Int × Stores)
  loops : List (Int × Option replicant_returncode × Stores)
  disc : replicant_returncode
  desc : String
  deriving DecidableEq, Repr

/-- A library that answers from a script, whatever the arguments; a call with
nothing left in the script throws. -/
def script_client (start : Script) : replicant_client Script where
  init := Ret.value start
  send := fun st _ _ _ _ =>
    match st.sends with
    | [] => Ret.thrown (Exn.std_exception "script")
    | x :: xs => Ret.value ⟨x.1, x.2, { st with sends := xs }⟩
  loop := fun st _ =>
    match st.loops with
    | [] => Ret.thrown (Exn.std_exception "script")
    | x :: xs => Ret.value ⟨x.1, x.2.1, x.2.2, { st with loops := xs }⟩
  disconnect := fun st => Ret.value (st.disc, st)
  last_error_desc := fun st => st.desc

/-- The bytes of "hello". -/
def hello : List Byte := [104, 101, 108, 108, 111]

/-- The bytes of "hi". -/
def hi : List Byte := [104, 105]

/-- A store of `REPLICANT_SUCCESS` and of the result bytes. -/
def ok (bytes : List Byte) : Stores := ⟨some REPLICANT_SUCCESS, some bytes⟩

/-- No store at all. -/
def nothing : Stores := ⟨none, none⟩

/-- The library of a two-line run in which both completions bring their buffer. -/
def two_line_script : Script :=
  ⟨[(1, nothing), (2, nothing)], [(1, none, ok hello), (2, none, ok hi)],
    REPLICANT_SUCCESS, ""⟩

/-! ## The loop body, path by path -/

section paths

variable {σ : Type} (r : replicant_client σ) (object function : String) (st : σ)
  (stale : List Byte) (s : List Byte)

theorem loop_body_send_throw (e : Exn)
    (hsend : r.send st object function (s ++ [NUL]) (s.length + 1) = Ret.thrown e) :
    loop_body r object function st stale s =
      ([Event.send_throw object function (s ++ [NUL]) (s.length + 1) e], Step.throw e) := by
  simp only [loop_body, hsend]

theorem loop_body_send_failed (a : SendRet σ)
    (hsend : r.send st object function (s ++ [NUL]) (s.length + 1) = Ret.value a)
    (hneg : a.rid < 0) :
    loop_body r object function st stale s =
      ([Event.send object function (s ++ [NUL]) (s.length + 1) a.rid (re_after_send a),
        Event.cerr (Diagnostic.could_not_send (r.last_error_desc a.next) (re_after_send a))],
        Step.return EXIT_FAILURE) := by
  simp only [loop_body, hsend, hneg, if_true, re_after_send]

theorem loop_body_loop_throw (a : SendRet σ) (e : Exn)
    (hsend : r.send st object function (s ++ [NUL]) (s.length + 1) = Ret.value a)
    (hadm : 0 ≤ a.rid) (hloop : r.loop a.next (-1) = Ret.thrown e) :
    loop_body r object function st stale s =
      ([Event.send object function (s ++ [NUL]) (s.length + 1) a.rid (re_after_send a),
        Event.loop_throw (-1) e], Step.throw e) := by
  have h : ¬ a.rid < 0 := not_lt.mpr hadm
  simp only [loop_body, hsend, h, if_false, hloop, re_after_send]

theorem loop_body_loop_failed (a : SendRet σ) (b : LoopRet σ)
    (hsend : r.send st object function (s ++ [NUL]) (s.length + 1) = Ret.value a)
    (hadm : 0 ≤ a.rid) (hloop : r.loop a.next (-1) = Ret.value b) (hneg : b.lid < 0) :
    loop_body r object function st stale s =
      ([Event.send object function (s ++ [NUL]) (s.length + 1) a.rid (re_after_send a),
        Event.loop (-1) b.lid (le_after_loop b) (re_after_loop a b) (output_after_loop a b),
        Event.cerr (Diagnostic.could_not_loop (r.last_error_desc b.next) (le_after_loop b))],
        Step.return EXIT_FAILURE) := by
  have h : ¬ a.rid < 0 := not_lt.mpr hadm
  simp only [loop_body, hsend, h, if_false, hloop, hneg, if_true, re_after_send,
    re_after_loop, le_after_loop, output_after_loop]

theorem loop_body_mismatch (a : SendRet σ) (b : LoopRet σ)
    (hsend : r.send st object function (s ++ [NUL]) (s.length + 1) = Ret.value a)
    (hadm : 0 ≤ a.rid) (hloop : r.loop a.next (-1) = Ret.value b) (hlid : 0 ≤ b.lid)
    (hne : b.lid ≠ a.rid) :
    loop_body r object function st stale s =
      ([Event.send object function (s ++ [NUL]) (s.length + 1) a.rid (re_after_send a),
        Event.loop (-1) b.lid (le_after_loop b) (re_after_loop a b) (output_after_loop a b),
        Event.cerr Diagnostic.internal_error],
        Step.return EXIT_FAILURE) := by
  have h : ¬ a.rid < 0 := not_lt.mpr hadm
  have h' : ¬ b.lid < 0 := not_lt.mpr hlid
  have h'' : a.rid ≠ b.lid := fun h => hne h.symm
  simp only [loop_body, hsend, h, if_false, hloop, h', h'', ne_eq, not_false_eq_true, if_true,
    re_after_send, re_after_loop, le_after_loop, output_after_loop]

theorem loop_body_remote_failed (a : SendRet σ) (b : LoopRet σ)
    (hsend : r.send st object function (s ++ [NUL]) (s.length + 1) = Ret.value a)
    (hadm : 0 ≤ a.rid) (hloop : r.loop a.next (-1) = Ret.value b)
    (heq : b.lid = a.rid) (hre : re_after_loop a b ≠ REPLICANT_SUCCESS) :
    loop_body r object function st stale s =
      ([Event.send object function (s ++ [NUL]) (s.length + 1) a.rid (re_after_send a),
        Event.loop (-1) b.lid (le_after_loop b) (re_after_loop a b) (output_after_loop a b),
        Event.cerr (Diagnostic.could_not_process (r.last_error_desc b.next)
          (re_after_loop a b))],
        Step.return EXIT_FAILURE) := by
  have h : ¬ a.rid < 0 := not_lt.mpr hadm
  have h' : ¬ b.lid < 0 := by rw [heq]; exact h
  have h'' : ¬ a.rid ≠ b.lid := fun h => h heq.symm
  simp only [re_after_loop, re_after_send] at hre
  simp only [loop_body, hsend, h, if_false, hloop, h', h'', hre, ne_eq, not_false_eq_true,
    if_true, re_after_send, re_after_loop, le_after_loop, output_after_loop]

theorem loop_body_success (a : SendRet σ) (b : LoopRet σ)
    (hsend : r.send st object function (s ++ [NUL]) (s.length + 1) = Ret.value a)
    (hadm : 0 ≤ a.rid) (hloop : r.loop a.next (-1) = Ret.value b)
    (heq : b.lid = a.rid) (hre : re_after_loop a b = REPLICANT_SUCCESS) :
    loop_body r object function st stale s =
      ([Event.send object function (s ++ [NUL]) (s.length + 1) a.rid (re_after_send a),
        Event.loop (-1) a.rid (le_after_loop b) REPLICANT_SUCCESS (output_after_loop a b),
        Event.copy_output ((output_after_loop a b).getD stale),
        Event.cout ((output_after_loop a b).getD stale ++ [NL]),
        Event.destroy_output ((output_after_loop a b).getD stale)],
        Step.continue b.next ((output_after_loop a b).getD stale)) := by
  have h : ¬ a.rid < 0 := not_lt.mpr hadm
  have h' : ¬ b.lid < 0 := by rw [heq]; exact h
  have h'' : ¬ a.rid ≠ b.lid := fun h => h heq.symm
  simp only [re_after_loop, re_after_send] at hre
  simp only [loop_body, hsend, h, if_false, hloop, h', h'', hre, ne_eq, not_true_eq_false,
    re_after_send, re_after_loop, le_after_loop, output_after_loop, heq]

end paths

theorem path_exists {σ : Type} (r : replicant_client σ) (object function : String) (st : σ)
    (s : List Byte) : Path r object function st s := by
  cases hsend : r.send st object function (s ++ [NUL]) (s.length + 1) with
  | thrown e => exact Path.send_throw e hsend
  | value a =>
    by_cases hneg : a.rid < 0
    · exact Path.send_failed a hsend hneg
    · have hadm : 0 ≤ a.rid := not_lt.mp hneg
      cases hloop : r.loop a.next (-1) with
      | thrown e => exact Path.loop_throw a e hsend hadm hloop
      | value b =>
        by_cases hlneg : b.lid < 0
        · exact Path.loop_failed a b hsend hadm hloop hlneg
        · by_cases heq : b.lid = a.rid
          · by_cases hre : re_after_loop a b = REPLICANT_SUCCESS
            · exact Path.success a b hsend hadm hloop heq hre
            · exact Path.remote_failed a b hsend hadm hloop heq hre
          · exact Path.mismatch a b hsend hadm hloop (not_lt.mp hlneg) heq

/-! ## The loop over the lines -/

section loop

variable {σ : Type} (r : replicant_client σ) (object function : String)

theorem while_getline_nil (st : σ) (stale : List Byte) :
    while_getline r object function st stale [] = ([], Step.continue st stale) := rfl

theorem while_getline_continue (st st' : σ) (stale stale' : List Byte) (s : List Byte)
    (rest : List (List Byte)) (ev : List Event)
    (h : loop_body r object function st stale s = (ev, Step.continue st' stale')) :
    while_getline r object function st stale (s :: rest) =
      (ev ++ (while_getline r object function st' stale' rest).1,
        (while_getline r object function st' stale' rest).2) := by
  simp only [while_getline, h]

theorem while_getline_return (st : σ) (stale : List Byte) (s : List Byte)
    (rest : List (List Byte)) (ev : List Event) (code : Nat)
    (h : loop_body r object function st stale s = (ev, Step.return code)) :
    while_getline r object function st stale (s :: rest) = (ev, Step.return code) := by
  simp only [while_getline, h]

theorem while_getline_throw (st : σ) (stale : List Byte) (s : List Byte)
    (rest : List (List Byte)) (ev : List Event) (e : Exn)
    (h : loop_body r object function st stale s = (ev, Step.throw e)) :
    while_getline r object function st stale (s :: rest) = (ev, Step.throw e) := by
  simp only [while_getline, h]

/-- The loop body on a line: either it passes all four checks and the loop goes on
with the next line, or the loop ends with the body, by `return EXIT_FAILURE` or by
an exception. -/
theorem while_getline_cons (st : σ) (stale : List Byte) (s : List Byte)
    (rest : List (List Byte)) :
    (∃ (a : SendRet σ) (b : LoopRet σ),
      r.send st object function (s ++ [NUL]) (s.length + 1) = Ret.value a ∧
      0 ≤ a.rid ∧ r.loop a.next (-1) = Ret.value b ∧ b.lid = a.rid ∧
      re_after_loop a b = REPLICANT_SUCCESS ∧
      call_succeeds r object function st s = some (output_after_loop a b, b.next) ∧
      loop_body r object function st stale s =
        ([Event.send object function (s ++ [NUL]) (s.length + 1) a.rid (re_after_send a),
          Event.loop (-1) a.rid (le_after_loop b) REPLICANT_SUCCESS (output_after_loop a b),
          Event.copy_output ((output_after_loop a b).getD stale),
          Event.cout ((output_after_loop a b).getD stale ++ [NL]),
          Event.destroy_output ((output_after_loop a b).getD stale)],
          Step.continue b.next ((output_after_loop a b).getD stale)) ∧
      while_getline r object function st stale (s :: rest) =
        ((loop_body r object function st stale s).1 ++
          (while_getline r object function b.next ((output_after_loop a b).getD stale) rest).1,
          (while_getline r object function b.next
            ((output_after_loop a b).getD stale) rest).2)) ∨
    (while_getline r object function st stale (s :: rest) =
        loop_body r object function st stale s ∧
      call_succeeds r object function st s = none ∧
      ((loop_body r object function st stale s).2 = Step.return EXIT_FAILURE ∨
       (∃ e, (loop_body r object function st stale s).2 = Step.throw e))) := by
  rcases path_exists r object function st s with
    ⟨e, hs⟩ | ⟨a, hs, hn⟩ | ⟨a, e, hs, ha, hl⟩ | ⟨a, b, hs, ha, hl, hn⟩ |
    ⟨a, b, hs, ha, hl, hn, hne⟩ | ⟨a, b, hs, ha, hl, he, hre⟩ |
    ⟨a, b, hs, ha, hl, he, hre⟩
  · have hb := loop_body_send_throw r object function st stale s e hs
    right
    rw [while_getline_throw r object function st stale s rest _ e hb, hb]
    exact ⟨rfl, by simp [call_succeeds, hs], Or.inr ⟨e, rfl⟩⟩
  · have hb := loop_body_send_failed r object function st stale s a hs hn
    right
    rw [while_getline_return r object function st stale s rest _ _ hb, hb]
    exact ⟨rfl, by simp [call_succeeds, hs, not_le.mpr hn], Or.inl rfl⟩
  · have hb := loop_body_loop_throw r object function st stale s a e hs ha hl
    right
    rw [while_getline_throw r object function st stale s rest _ e hb, hb]
    exact ⟨rfl, by simp [call_succeeds, hs, ha, hl], Or.inr ⟨e, rfl⟩⟩
  · have hb := loop_body_loop_failed r object function st stale s a b hs ha hl hn
    right
    rw [while_getline_return r object function st stale s rest _ _ hb, hb]
    have hne : ¬ b.lid = a.rid := by omega
    exact ⟨rfl, by simp [call_succeeds, hs, ha, hl, hne], Or.inl rfl⟩
  · have hb := loop_body_mismatch r object function st stale s a b hs ha hl hn hne
    right
    rw [while_getline_return r object function st stale s rest _ _ hb, hb]
    exact ⟨rfl, by simp [call_succeeds, hs, ha, hl, hne], Or.inl rfl⟩
  · have hb := loop_body_remote_failed r object function st stale s a b hs ha hl he hre
    right
    rw [while_getline_return r object function st stale s rest _ _ hb, hb]
    exact ⟨rfl, by simp [call_succeeds, hs, ha, hl, hre], Or.inl rfl⟩
  · have hb := loop_body_success r object function st stale s a b hs ha hl he hre
    left
    refine ⟨a, b, hs, ha, hl, he, hre, by simp [call_succeeds, hs, ha, hl, he, hre], hb, ?_⟩
    rw [while_getline_continue r object function st b.next stale _ s rest _ hb, hb]

/-- The loop ends at the end of input, by `return EXIT_FAILURE` or by an
exception. -/
theorem while_getline_stops (lines : List (List Byte)) :
    ∀ (st : σ) (stale : List Byte),
      (∃ st' stale', (while_getline r object function st stale lines).2 =
        Step.continue st' stale') ∨
      (while_getline r object function st stale lines).2 = Step.return EXIT_FAILURE ∨
      (∃ e, (while_getline r object function st stale lines).2 = Step.throw e) := by
  induction lines with
  | nil => intro st stale; exact Or.inl ⟨st, stale, rfl⟩
  | cons s rest ih =>
    intro st stale
    rcases while_getline_cons r object function st stale s rest with
      ⟨a, b, -, -, -, -, -, -, -, hw⟩ | ⟨hw, -, hk⟩
    · rw [hw]; exact ih b.next _
    · rw [hw]; exact Or.inr hk

/-- When the loop runs through `s :: rest`, the body passed all four checks on `s`
and the loop runs through `rest`. -/
theorem while_getline_continue_inv (st st' : σ) (stale stale' : List Byte) (s : List Byte)
    (rest : List (List Byte)) (tr : List Event)
    (h : while_getline r object function st stale (s :: rest) =
      (tr, Step.continue st' stale')) :
    ∃ (a : SendRet σ) (b : LoopRet σ) (tr' : List Event),
      r.send st object function (s ++ [NUL]) (s.length + 1) = Ret.value a ∧
      0 ≤ a.rid ∧ r.loop a.next (-1) = Ret.value b ∧ b.lid = a.rid ∧
      re_after_loop a b = REPLICANT_SUCCESS ∧
      call_succeeds r object function st s = some (output_after_loop a b, b.next) ∧
      while_getline r object function b.next ((output_after_loop a b).getD stale) rest =
        (tr', Step.continue st' stale') ∧
      tr = [Event.send object function (s ++ [NUL]) (s.length + 1) a.rid (re_after_send a),
        Event.loop (-1) a.rid (le_after_loop b) REPLICANT_SUCCESS (output_after_loop a b),
        Event.copy_output ((output_after_loop a b).getD stale),
        Event.cout ((output_after_loop a b).getD stale ++ [NL]),
        Event.destroy_output ((output_after_loop a b).getD stale)] ++ tr' := by
  rcases while_getline_cons r object function st stale s rest with
    ⟨a, b, hs, ha, hl, he, hre, hc, hb, hw⟩ | ⟨hw, -, hk | ⟨e, hk⟩⟩
  · rw [hw, hb] at h
    have h1 := congrArg Prod.fst h
    have h2 := congrArg Prod.snd h
    simp only at h1 h2
    exact ⟨a, b, _, hs, ha, hl, he, hre, hc, Prod.ext rfl h2, h1.symm⟩
  · rw [hw] at h
    rw [congrArg Prod.snd h] at hk
    cases hk
  · rw [hw] at h
    rw [congrArg Prod.snd h] at hk
    cases hk

/-- When the loop runs through the lines `pre`, the run over `pre ++ rest` is the
run over `pre` followed by the run over `rest`. -/
theorem while_getline_append (pre rest : List (List Byte)) :
    ∀ (st st' : σ) (stale stale' : List Byte) (tr : List Event),
      while_getline r object function st stale pre = (tr, Step.continue st' stale') →
      while_getline r object function st stale (pre ++ rest) =
        (tr ++ (while_getline r object function st' stale' rest).1,
          (while_getline r object function st' stale' rest).2) := by
  induction pre with
  | nil =>
    intro st st' stale stale' tr h
    simp only [while_getline, Prod.mk.injEq, Step.continue.injEq] at h
    obtain ⟨h1, h2, h3⟩ := h
    subst h1 h2 h3
    simp
  | cons s pre ih =>
    intro st st' stale stale' tr h
    obtain ⟨a, b, tr', hs, ha, hl, he, hre, -, hrest, htr⟩ :=
      while_getline_continue_inv r object function st st' stale stale' s pre tr h
    have hb := loop_body_success r object function st stale s a b hs ha hl he hre
    rw [List.cons_append, while_getline_continue r object function st b.next stale _ s
      (pre ++ rest) _ hb, ih b.next st' _ stale' tr' hrest, htr]
    simp

/-- The loop runs through the lines exactly when the call for every line
succeeds, by the library's answers. -/
theorem while_getline_all_succeed (lines : List (List Byte)) :
    ∀ (st st' : σ) (stale : List Byte),
      (∃ stale', (while_getline r object function st stale lines).2 =
        Step.continue st' stale') ↔
      (∃ outputs, all_succeed r object function st lines = some (outputs, st')) := by
  induction lines with
  | nil =>
    intro st st' stale
    simp [while_getline, all_succeed]
  | cons s rest ih =>
    intro st st' stale
    rcases while_getline_cons r object function st stale s rest with
      ⟨a, b, hs, ha, hl, he, hre, hc, hb, hw⟩ | ⟨hw, hc, hk | ⟨e, hk⟩⟩
    · rw [hw]
      simp only [all_succeed, hc]
      rw [ih b.next st' _]
      constructor
      · rintro ⟨outputs, h⟩
        exact ⟨_, by rw [h]⟩
      · rintro ⟨outputs, h⟩
        cases h' : all_succeed r object function b.next rest with
        | none => rw [h'] at h; simp at h
        | some p =>
          obtain ⟨o', s'⟩ := p
          rw [h'] at h
          simp only [Option.some.injEq, Prod.mk.injEq] at h
          exact ⟨o', by rw [h.2]⟩
    · rw [hw, hk]
      simp [all_succeed, hc]
    · rw [hw, hk]
      simp [all_succeed, hc]

end loop

/-! ## Projections distribute over concatenation -/

theorem stdout_append (x y : List Event) : stdout (x ++ y) = stdout x ++ stdout y := by
  induction x with
  | nil => rfl
  | cons e x ih => cases e <;> simp [stdout, ih]

theorem stderr_append (x y : List Event) : stderr (x ++ y) = stderr x ++ stderr y := by
  induction x with
  | nil => rfl
  | cons e x ih => cases e <;> simp [stderr, ih]

theorem released_append (x y : List Event) : released (x ++ y) = released x ++ released y := by
  induction x with
  | nil => rfl
  | cons e x ih => cases e <;> simp [released, ih]

theorem printed_append (x y : List Event) : printed (x ++ y) = printed x + printed y := by
  induction x with
  | nil => simp [printed]
  | cons e x ih => cases e <;> simp [printed, ih]; omega

theorem delivered_append (x y : List Event) :
    delivered (x ++ y) = delivered x ++ delivered y := by
  induction x with
  | nil => rfl
  | cons e x ih =>
    cases e with
    | loop t lid le re output => cases output <;> simp [delivered, ih]
    | _ => simp [delivered, ih]

theorem submitted_append (x y : List Event) :
    submitted (x ++ y) = submitted x ++ submitted y := by
  induction x with
  | nil => rfl
  | cons e x ih => cases e <;> simp [submitted, ih]

theorem loop_timeouts_append (x y : List Event) :
    loop_timeouts (x ++ y) = loop_timeouts x ++ loop_timeouts y := by
  induction x with
  | nil => rfl
  | cons e x ih => cases e <;> simp [loop_timeouts, ih]

/-! ## What follows the loop -/

section after

variable {σ : Type} (r : replicant_client σ)

theorem handler_append (x w : List Event) (e : Exn) :
    handler (x ++ w) e = ⟨x ++ (handler w e).trace, (handler w e).status⟩ := by
  cases e <;> simp [handler]

/-- An exception ends the run with a diagnostic and `EXIT_FAILURE`, or, when no
clause catches it, without either. -/
theorem handler_trace (tr : List Event) (e : Exn) :
    (∃ dg, (handler tr e).trace = tr ++ [Event.cerr dg] ∧
      (handler tr e).status = some EXIT_FAILURE) ∨
    ((handler tr e).trace = tr ∧ (handler tr e).status = none) := by
  cases e with
  | po6_error w => exact Or.inl ⟨_, rfl, rfl⟩
  | std_exception w => exact Or.inl ⟨_, rfl, rfl⟩
  | other_object => exact Or.inr ⟨rfl, rfl⟩

theorem handler_status (tr : List Event) (e : Exn) :
    (handler tr e).status ≠ some EXIT_SUCCESS := by
  cases e <;> simp [handler, EXIT_FAILURE, EXIT_SUCCESS]

theorem after_loop_append (x w : List Event) (k : Step σ) :
    after_loop r (x ++ w) k = ⟨x ++ (after_loop r w k).trace, (after_loop r w k).status⟩ := by
  cases k with
  | «continue» st stale =>
    simp only [after_loop]
    cases hd : r.disconnect st with
    | thrown e =>
      simp only [List.append_assoc]
      rw [handler_append]
    | value p =>
      obtain ⟨e, st'⟩ := p
      by_cases he : e = REPLICANT_SUCCESS <;> simp [he]
  | «return» code => simp [after_loop]
  | throw e => simp only [after_loop]; rw [handler_append]

theorem after_loop_extends (x : List Event) (k : Step σ) :
    x <+: (after_loop r x k).trace := by
  have h := after_loop_append r x [] k
  rw [List.append_nil] at h
  rw [h]
  exact List.prefix_append _ _

theorem loop_body_extends (object function : String) (st : σ) (stale : List Byte)
    (s : List Byte) (rest : List (List Byte)) :
    (loop_body r object function st stale s).1 <+:
      (while_getline r object function st stale (s :: rest)).1 := by
  rcases while_getline_cons r object function st stale s rest with
    ⟨a, b, -, -, -, -, -, -, -, hw⟩ | ⟨hw, -, -⟩
  · rw [hw]; exact List.prefix_append _ _
  · rw [hw]

/-- A run that has read the line `s` continues with the loop from `s` on. -/
theorem main_of_reads_line (o f : Option String) (cin : List Byte) (stale₀ : List Byte)
    (tr : List Event) (st : σ) (stale : List Byte) (s : List Byte) (post : List (List Byte))
    (h : reads_line r o f cin stale₀ tr st stale s post) :
    main r o f cin stale₀ =
      after_loop r
        (tr ++ (while_getline r (o.getD _object) (f.getD _function) st stale (s :: post)).1)
        (while_getline r (o.getD _object) (f.getD _function) st stale (s :: post)).2 := by
  obtain ⟨st₀, pre, hinit, hin, hpre⟩ := h
  simp only [main, try_block, hinit, hin]
  rw [while_getline_append r _ _ pre (s :: post) st₀ st stale₀ stale tr hpre]

/-- A run that has read the line `s` has the events of the loop body for `s` in
its trace, right after the events before. -/
theorem body_events_in_trace (o f : Option String) (cin : List Byte) (stale₀ : List Byte)
    (tr : List Event) (st : σ) (stale : List Byte) (s : List Byte) (post : List (List Byte))
    (h : reads_line r o f cin stale₀ tr st stale s post) :
    (tr ++ (loop_body r (o.getD _object) (f.getD _function) st stale s).1) <+:
      (main r o f cin stale₀).trace := by
  rw [main_of_reads_line r o f cin stale₀ tr st stale s post h]
  refine List.IsPrefix.trans ?_ (after_loop_extends r _ _)
  obtain ⟨t, ht⟩ := loop_body_extends r (o.getD _object) (f.getD _function) st stale s post
  exact ⟨t, by rw [← ht, List.append_assoc]⟩

/-- What follows the loop at the end of input: one call of `disconnect` and at most
a diagnostic. -/
theorem after_loop_continue (tr : List Event) (st : σ) (stale : List Byte) :
    ∃ (d : Event) (rest : List Event),
      (after_loop r tr (Step.continue st stale)).trace = tr ++ d :: rest ∧
      is_disconnect d = true ∧ (rest = [] ∨ ∃ dg, rest = [Event.cerr dg]) := by
  simp only [after_loop]
  cases hd : r.disconnect st with
  | thrown e =>
    rcases handler_trace (tr ++ [Event.disconnect_throw e]) e with ⟨dg, h, -⟩ | ⟨h, -⟩
    · exact ⟨Event.disconnect_throw e, [Event.cerr dg], by rw [h]; simp, rfl,
        Or.inr ⟨dg, rfl⟩⟩
    · exact ⟨Event.disconnect_throw e, [], by rw [h], rfl, Or.inl rfl⟩
  | value p =>
    obtain ⟨e, st'⟩ := p
    by_cases he : e = REPLICANT_SUCCESS
    · exact ⟨Event.disconnect e, [], by simp [he], rfl, Or.inl rfl⟩
    · exact ⟨Event.disconnect e,
        [Event.cerr (Diagnostic.error_disconnecting (r.last_error_desc st') e)],
        by simp [he], rfl, Or.inr ⟨_, rfl⟩⟩

/-- What follows the loop adds no call of `send` or `loop`, no print and no
release. -/
theorem after_loop_projections (tr : List Event) (k : Step σ) :
    submitted (after_loop r tr k).trace = submitted tr ∧
    loop_timeouts (after_loop r tr k).trace = loop_timeouts tr ∧
    stdout (after_loop r tr k).trace = stdout tr ∧
    released (after_loop r tr k).trace = released tr ∧
    delivered (after_loop r tr k).trace = delivered tr := by
  cases k with
  | «continue» st stale =>
    obtain ⟨d, rest, h, hd, hrest⟩ := after_loop_continue r tr st stale
    rw [h, submitted_append, loop_timeouts_append, stdout_append, released_append,
      delivered_append]
    cases d <;> simp [is_disconnect] at hd <;>
      rcases hrest with hr | ⟨dg, hr⟩ <;>
      simp [hr, submitted, loop_timeouts, stdout, released, delivered]
  | «return» code => exact ⟨rfl, rfl, rfl, rfl, rfl⟩
  | throw e =>
    simp only [after_loop]
    rcases handler_trace tr e with ⟨dg, h, -⟩ | ⟨h, -⟩
    · rw [h, submitted_append, loop_timeouts_append, stdout_append, released_append,
        delivered_append]
      simp [submitted, loop_timeouts, stdout, released, delivered]
    · rw [h]; exact ⟨rfl, rfl, rfl, rfl, rfl⟩

/-- A run ends with `EXIT_SUCCESS` only when the loop reached the end of input and
`disconnect` returned `REPLICANT_SUCCESS`. -/
theorem after_loop_success (object function : String) (lines : List (List Byte)) (st : σ)
    (stale : List Byte)
    (h : (after_loop r (while_getline r object function st stale lines).1
      (while_getline r object function st stale lines).2).status = some EXIT_SUCCESS) :
    ∃ st' stale' st'', (while_getline r object function st stale lines).2 =
        Step.continue st' stale' ∧
      r.disconnect st' = Ret.value (REPLICANT_SUCCESS, st'') := by
  rcases while_getline_stops r object function lines st stale with
    ⟨st', stale', hk⟩ | hk | ⟨e, hk⟩
  · rw [hk] at h
    simp only [after_loop] at h
    cases hd : r.disconnect st' with
    | thrown e =>
      rw [hd] at h
      exact absurd h (handler_status _ e)
    | value p =>
      obtain ⟨e, st''⟩ := p
      rw [hd] at h
      by_cases he : e = REPLICANT_SUCCESS
      · exact ⟨st', stale', st'', hk, by rw [hd, he]⟩
      · simp only [ne_eq, he, not_false_eq_true, if_true] at h
        exact absurd h (by decide)
  · rw [hk] at h
    simp only [after_loop] at h
    exact absurd h (by decide)
  · rw [hk] at h
    simp only [after_loop] at h
    exact absurd h (handler_status _ e)

end after

/-! ## Claims about one line -/

section line

variable {σ : Type} (r : replicant_client σ) (o f : Option String) (cin : List Byte)
  (stale₀ : List Byte) (tr : List Event) (st : σ) (stale : List Byte) (s : List Byte)
  (post : List (List Byte))

/-- C1: when `send` returns a negative request id for a line, the run ends
there: the events of the run after those of the earlier lines are the call of
`send` and the diagnostic "could not send request" carrying the description of
the session and the status `re` registered with `send`; the exit status is
`EXIT_FAILURE`.  In particular `loop` is not called for that line and no result
buffer is read, printed or released. -/
theorem send_failure_ends_run (a : SendRet σ)
    (hline : reads_line r o f cin stale₀ tr st stale s post)
    (hsend : r.send st (o.getD _object) (f.getD _function) (s ++ [NUL]) (s.length + 1)
      = Ret.value a)
    (hneg : a.rid < 0) :
    main r o f cin stale₀ =
      ⟨tr ++ [Event.send (o.getD _object) (f.getD _function) (s ++ [NUL]) (s.length + 1)
                a.rid (re_after_send a),
              Event.cerr (Diagnostic.could_not_send (r.last_error_desc a.next)
                (re_after_send a))],
        some EXIT_FAILURE⟩ ∧
    (∀ e ∈ (main r o f cin stale₀).trace.drop tr.length,
      is_loop e = false ∧ touches_buffer e = false) ∧
    EXIT_FAILURE ≠ 0 := by
  have hb := loop_body_send_failed r _ _ st stale s a hsend hneg
  have hm : main r o f cin stale₀ = _ :=
    main_of_reads_line r o f cin stale₀ tr st stale s post hline
  rw [while_getline_return r _ _ st stale s post _ _ hb] at hm
  simp only [after_loop] at hm
  refine ⟨hm, ?_, by decide⟩
  rw [hm]
  simp [is_loop, touches_buffer]

/-- C2: when `send` admitted the call with id `rid ≥ 0` and `loop` returns an id
`lid ≥ 0` different from `rid`, then whatever the status codes are the run ends
with the diagnostic "could not process request: internal error" and exit status
`EXIT_FAILURE`; no result buffer is read or released and nothing is written to
standard output for that line. -/
theorem mismatch_ends_run (a : SendRet σ) (b : LoopRet σ)
    (hline : reads_line r o f cin stale₀ tr st stale s post)
    (hsend : r.send st (o.getD _object) (f.getD _function) (s ++ [NUL]) (s.length + 1)
      = Ret.value a)
    (hadm : 0 ≤ a.rid) (hloop : r.loop a.next (-1) = Ret.value b) (hlid : 0 ≤ b.lid)
    (hne : b.lid ≠ a.rid) :
    main r o f cin stale₀ =
      ⟨tr ++ [Event.send (o.getD _object) (f.getD _function) (s ++ [NUL]) (s.length + 1)
                a.rid (re_after_send a),
              Event.loop (-1) b.lid (le_after_loop b) (re_after_loop a b)
                (output_after_loop a b),
              Event.cerr Diagnostic.internal_error],
        some EXIT_FAILURE⟩ ∧
    (∀ e ∈ (main r o f cin stale₀).trace.drop tr.length, touches_buffer e = false) ∧
    stdout (main r o f cin stale₀).trace = stdout tr ∧
    EXIT_FAILURE ≠ 0 := by
  have hb := loop_body_mismatch r _ _ st stale s a b hsend hadm hloop hlid hne
  have hm : main r o f cin stale₀ = _ :=
    main_of_reads_line r o f cin stale₀ tr st stale s post hline
  rw [while_getline_return r _ _ st stale s post _ _ hb] at hm
  simp only [after_loop] at hm
  refine ⟨hm, ?_, ?_, by decide⟩
  · rw [hm]; simp [touches_buffer]
  · rw [hm]; simp [stdout_append, stdout]

/-- C3: when the call was admitted (`rid ≥ 0`), `loop` returned the same id and the
status `re` of the request is not `REPLICANT_SUCCESS`, the run ends with the
diagnostic "could not process request" carrying the session's error description
and that status, and with exit status `EXIT_FAILURE`; no result buffer is read or
released. -/
theorem remote_failure_ends_run (a : SendRet σ) (b : LoopRet σ)
    (hline : reads_line r o f cin stale₀ tr st stale s post)
    (hsend : r.send st (o.getD _object) (f.getD _function) (s ++ [NUL]) (s.length + 1)
      = Ret.value a)
    (hadm : 0 ≤ a.rid) (hloop : r.loop a.next (-1) = Ret.value b)
    (heq : b.lid = a.rid) (hre : re_after_loop a b ≠ REPLICANT_SUCCESS) :
    main r o f cin stale₀ =
      ⟨tr ++ [Event.send (o.getD _object) (f.getD _function) (s ++ [NUL]) (s.length + 1)
                a.rid (re_after_send a),
              Event.loop (-1) b.lid (le_after_loop b) (re_after_loop a b)
                (output_after_loop a b),
              Event.cerr (Diagnostic.could_not_process (r.last_error_desc b.next)
                (re_after_loop a b))],
        some EXIT_FAILURE⟩ ∧
    (∀ e ∈ (main r o f cin stale₀).trace.drop tr.length, touches_buffer e = false) ∧
    EXIT_FAILURE ≠ 0 := by
  have hb := loop_body_remote_failed r _ _ st stale s a b hsend hadm hloop heq hre
  have hm : main r o f cin stale₀ = _ :=
    main_of_reads_line r o f cin stale₀ tr st stale s post hline
  rw [while_getline_return r _ _ st stale s post _ _ hb] at hm
  simp only [after_loop] at hm
  refine ⟨hm, ?_, by decide⟩
  rw [hm]; simp [touches_buffer]

/-- C4: for an admitted call (`rid ≥ 0`) the loop body calls `loop` exactly once,
with timeout `-1`, and its events are part of the run's trace; when `loop`
returns a negative id the run ends with the diagnostic "could not loop" carrying
the status `le` that `loop` reported, and exit status `EXIT_FAILURE`, without a
further check and without touching a result buffer. -/
theorem loop_called_once_and_failure_ends_run (a : SendRet σ)
    (hline : reads_line r o f cin stale₀ tr st stale s post)
    (hsend : r.send st (o.getD _object) (f.getD _function) (s ++ [NUL]) (s.length + 1)
      = Ret.value a)
    (hadm : 0 ≤ a.rid) :
    loop_timeouts (loop_body r (o.getD _object) (f.getD _function) st stale s).1 = [-1] ∧
    (tr ++ (loop_body r (o.getD _object) (f.getD _function) st stale s).1) <+:
      (main r o f cin stale₀).trace ∧
    (∀ b : LoopRet σ, r.loop a.next (-1) = Ret.value b → b.lid < 0 →
      main r o f cin stale₀ =
        ⟨tr ++ [Event.send (o.getD _object) (f.getD _function) (s ++ [NUL]) (s.length + 1)
                  a.rid (re_after_send a),
                Event.loop (-1) b.lid (le_after_loop b) (re_after_loop a b)
                  (output_after_loop a b),
                Event.cerr (Diagnostic.could_not_loop (r.last_error_desc b.next)
                  (le_after_loop b))],
          some EXIT_FAILURE⟩ ∧
      (∀ e ∈ (main r o f cin stale₀).trace.drop tr.length, touches_buffer e = false) ∧
      EXIT_FAILURE ≠ 0) := by
  refine ⟨?_, body_events_in_trace r o f cin stale₀ tr st stale s post hline, ?_⟩
  · rcases path_exists r (o.getD _object) (f.getD _function) st s with
      ⟨e, hs⟩ | ⟨a', hs, hn⟩ | ⟨a', e, hs, ha, hl⟩ | ⟨a', b, hs, ha, hl, hn⟩ |
      ⟨a', b, hs, ha, hl, hn, hne⟩ | ⟨a', b, hs, ha, hl, he, hre⟩ |
      ⟨a', b, hs, ha, hl, he, hre⟩
    · rw [hsend] at hs; cases hs
    · rw [hsend] at hs; cases hs; omega
    · rw [loop_body_loop_throw r _ _ st stale s a' e hs ha hl]; simp [loop_timeouts]
    · rw [loop_body_loop_failed r _ _ st stale s a' b hs ha hl hn]; simp [loop_timeouts]
    · rw [loop_body_mismatch r _ _ st stale s a' b hs ha hl hn hne]; simp [loop_timeouts]
    · rw [loop_body_remote_failed r _ _ st stale s a' b hs ha hl he hre]
      simp [loop_timeouts]
    · rw [loop_body_success r _ _ st stale s a' b hs ha hl he hre]; simp [loop_timeouts]
  · intro b hloop hlneg
    have hb := loop_body_loop_failed r _ _ st stale s a b hsend hadm hloop hlneg
    have hm : main r o f cin stale₀ = _ :=
      main_of_reads_line r o f cin stale₀ tr st stale s post hline
    rw [while_getline_return r _ _ st stale s post _ _ hb] at hm
    simp only [after_loop] at hm
    refine ⟨hm, ?_, by decide⟩
    rw [hm]; simp [touches_buffer]

end line

/-! ## Lines whose calls all succeed with a result buffer -/

section complete

variable {σ : Type} (r : replicant_client σ) (object function : String)

/-- When the call for every line succeeds and stores a result buffer, the loop
runs through the lines, the buffers delivered are those stored, and standard
output holds each of them followed by a newline. -/
theorem while_getline_results (lines : List (List Byte)) :
    ∀ (st st' : σ) (stale : List Byte) (outs : List (List Byte)),
      all_succeed r object function st lines = some (outs.map some, st') →
      outs.length = lines.length ∧
      delivered (while_getline r object function st stale lines).1 = outs ∧
      stdout (while_getline r object function st stale lines).1 =
        (outs.map (fun out => out ++ [NL])).flatten ∧
      ∃ stale', (while_getline r object function st stale lines).2 =
        Step.continue st' stale' := by
  induction lines with
  | nil =>
    intro st st' stale outs h
    simp only [all_succeed, Option.some.injEq, Prod.mk.injEq] at h
    obtain ⟨h1, h2⟩ := h
    have h3 : outs = [] := by
      cases outs with
      | nil => rfl
      | cons x xs => simp at h1
    subst h3 h2
    exact ⟨rfl, rfl, rfl, stale, rfl⟩
  | cons s rest ih =>
    intro st st' stale outs h
    rcases while_getline_cons r object function st stale s rest with
      ⟨a, b, hs, ha, hl, he, hre, hc, hb, hw⟩ | ⟨hw, hc, -⟩
    · simp only [all_succeed, hc] at h
      cases h' : all_succeed r object function b.next rest with
      | none => rw [h'] at h; simp at h
      | some p =>
        obtain ⟨outputs, st''⟩ := p
        rw [h'] at h
        simp only [Option.some.injEq, Prod.mk.injEq] at h
        obtain ⟨h1, h2⟩ := h
        cases outs with
        | nil => simp at h1
        | cons out outs' =>
          simp only [List.map_cons, List.cons.injEq] at h1
          obtain ⟨ho, hos⟩ := h1
          subst h2
          rw [hos] at h'
          obtain ⟨i1, i2, i3, stale', i4⟩ := ih b.next st'' ((output_after_loop a b).getD stale)
            outs' h'
          rw [ho] at hb hw i2 i3 i4
          simp only [Option.getD_some] at hb hw i2 i3 i4
          rw [hw, hb]
          simp only [delivered_append, stdout_append, i2, i3, i4]
          exact ⟨by simp [i1], by simp [delivered], by simp [stdout], stale', rfl⟩
    · simp [all_succeed, hc] at h

end complete

section line

variable {σ : Type} (r : replicant_client σ) (o f : Option String) (cin : List Byte)
  (stale₀ : List Byte) (tr : List Event) (st : σ) (stale : List Byte) (s : List Byte)
  (post : List (List Byte))

/-- C5: when the call for a line is admitted (`rid ≥ 0`), completed with the same id
and status `REPLICANT_SUCCESS`, and the result buffer holds the bytes `out`, the
loop body copies exactly `out`, writes `out` followed by one newline to standard
output, releases the buffer and goes on to the next line; these events are part of
the run's trace, and standard output grows by exactly `out` and a newline.
Whenever the calls for `k` lines all succeed with a result buffer, the loop runs
through them, `k` result buffers are delivered and standard output is their
concatenation in order, each followed by a newline; when these are all the lines
of the input, that is the standard output of the run. -/
theorem success_prints_result (a : SendRet σ) (b : LoopRet σ) (out : List Byte)
    (hline : reads_line r o f cin stale₀ tr st stale s post)
    (hsend : r.send st (o.getD _object) (f.getD _function) (s ++ [NUL]) (s.length + 1)
      = Ret.value a)
    (hadm : 0 ≤ a.rid) (hloop : r.loop a.next (-1) = Ret.value b)
    (heq : b.lid = a.rid) (hre : re_after_loop a b = REPLICANT_SUCCESS)
    (hout : output_after_loop a b = some out) :
    loop_body r (o.getD _object) (f.getD _function) st stale s =
      ([Event.send (o.getD _object) (f.getD _function) (s ++ [NUL]) (s.length + 1)
          a.rid (re_after_send a),
        Event.loop (-1) b.lid (le_after_loop b) REPLICANT_SUCCESS (some out),
        Event.copy_output out, Event.cout (out ++ [NL]), Event.destroy_output out],
        Step.continue b.next out) ∧
    (tr ++ (loop_body r (o.getD _object) (f.getD _function) st stale s).1) <+:
      (main r o f cin stale₀).trace ∧
    stdout (tr ++ (loop_body r (o.getD _object) (f.getD _function) st stale s).1) =
      stdout tr ++ (out ++ [NL]) ∧
    (∀ (lines : List (List Byte)) (st₁ st₂ : σ) (stale₁ : List Byte)
      (outs : List (List Byte)),
      all_succeed r (o.getD _object) (f.getD _function) st₁ lines =
        some (outs.map some, st₂) →
      outs.length = lines.length ∧
      delivered (while_getline r (o.getD _object) (f.getD _function) st₁ stale₁ lines).1 =
        outs ∧
      stdout (while_getline r (o.getD _object) (f.getD _function) st₁ stale₁ lines).1 =
        (outs.map (fun out => out ++ [NL])).flatten ∧
      ∃ stale₂, (while_getline r (o.getD _object) (f.getD _function) st₁ stale₁ lines).2 =
        Step.continue st₂ stale₂) ∧
    (∀ (st₁ st₂ : σ) (outs : List (List Byte)), r.init = Ret.value st₁ →
      all_succeed r (o.getD _object) (f.getD _function) st₁ (getlines cin) =
        some (outs.map some, st₂) →
      stdout (main r o f cin stale₀).trace = (outs.map (fun out => out ++ [NL])).flatten) := by
  have hb := loop_body_success r _ _ st stale s a b hsend hadm hloop heq hre
  rw [hout] at hb
  simp only [Option.getD_some] at hb
  refine ⟨by rw [hb, heq], body_events_in_trace r o f cin stale₀ tr st stale s post hline, ?_, ?_, ?_⟩
  · rw [hb]; simp [stdout_append, stdout]
  · intro lines st₁ st₂ stale₁ outs h
    exact while_getline_results r _ _ lines st₁ st₂ stale₁ outs h
  · intro st₁ st₂ outs hinit h
    obtain ⟨-, -, h3, -⟩ := while_getline_results r _ _ (getlines cin) st₁ st₂ stale₀ outs h
    simp only [main, try_block, hinit]
    rw [(after_loop_projections r _ _).2.2.1, h3]

end line

/-! ## The shape of every trace -/

section shape

variable {σ : Type} (r : replicant_client σ) (object function : String)

theorem after_loop_nil_shape (st : σ) (stale : List Byte) :
    Shape (after_loop r [] (Step.continue st stale)).trace := by
  simp only [after_loop]
  cases hd : r.disconnect st with
  | thrown e =>
    rcases handler_trace ([] ++ [Event.disconnect_throw e]) e with ⟨dg, h, -⟩ | ⟨h, -⟩
    · rw [h]; exact Shape.eof_throw e dg
    · rw [h]; exact Shape.eof_uncaught e
  | value p =>
    obtain ⟨e, st'⟩ := p
    by_cases he : e = REPLICANT_SUCCESS
    · subst he
      simp only [ne_eq, not_true_eq_false, if_false, List.nil_append]
      exact Shape.eof
    · simp only [ne_eq, he, not_false_eq_true, if_true, List.nil_append]
      exact Shape.eof_failed e _

/-- The trace of the loop over any lines, followed by what comes after the loop,
has the shape above. -/
theorem while_getline_shape (lines : List (List Byte)) :
    ∀ (st : σ) (stale : List Byte),
      Shape (after_loop r (while_getline r object function st stale lines).1
        (while_getline r object function st stale lines).2).trace := by
  induction lines with
  | nil =>
    intro st stale
    exact after_loop_nil_shape r st stale
  | cons s rest ih =>
    intro st stale
    rcases path_exists r object function st s with
      ⟨e, hs⟩ | ⟨a, hs, hn⟩ | ⟨a, e, hs, ha, hl⟩ | ⟨a, b, hs, ha, hl, hn⟩ |
      ⟨a, b, hs, ha, hl, hn, hne⟩ | ⟨a, b, hs, ha, hl, he, hre⟩ |
      ⟨a, b, hs, ha, hl, he, hre⟩
    · rw [while_getline_throw r object function st stale s rest _ e
        (loop_body_send_throw r object function st stale s e hs)]
      simp only [after_loop]
      rcases handler_trace
        [Event.send_throw object function (s ++ [NUL]) (s.length + 1) e] e with
        ⟨dg, h, -⟩ | ⟨h, -⟩
      · rw [h]; exact Shape.send_throw _ _ _ _ e dg
      · rw [h]; exact Shape.send_uncaught _ _ _ _ e
    · rw [while_getline_return r object function st stale s rest _ _
        (loop_body_send_failed r object function st stale s a hs hn)]
      exact Shape.send_failed _ _ _ _ _ _ _ hn
    · rw [while_getline_throw r object function st stale s rest _ e
        (loop_body_loop_throw r object function st stale s a e hs ha hl)]
      simp only [after_loop]
      rcases handler_trace
        [Event.send object function (s ++ [NUL]) (s.length + 1) a.rid (re_after_send a),
          Event.loop_throw (-1) e] e with ⟨dg, h, -⟩ | ⟨h, -⟩
      · rw [h]; exact Shape.loop_throw _ _ _ _ _ _ e dg ha
      · rw [h]; exact Shape.loop_uncaught _ _ _ _ _ _ e ha
    · rw [while_getline_return r object function st stale s rest _ _
        (loop_body_loop_failed r object function st stale s a b hs ha hl hn)]
      exact Shape.loop_failed _ _ _ _ _ _ _ _ _ _ _ ha (Or.inl (by omega))
    · rw [while_getline_return r object function st stale s rest _ _
        (loop_body_mismatch r object function st stale s a b hs ha hl hn hne)]
      exact Shape.loop_failed _ _ _ _ _ _ _ _ _ _ _ ha (Or.inl hne)
    · rw [while_getline_return r object function st stale s rest _ _
        (loop_body_remote_failed r object function st stale s a b hs ha hl he hre)]
      exact Shape.loop_failed _ _ _ _ _ _ _ _ _ _ _ ha (Or.inr hre)
    · rw [while_getline_continue r object function st b.next stale _ s rest _
        (loop_body_success r object function st stale s a b hs ha hl he hre)]
      rw [after_loop_append]
      simp only [List.cons_append, List.nil_append]
      exact Shape.block _ _ _ _ _ _ _ _ _ _ ha (ih b.next _)

/-- Every trace of `main` has the shape above. -/
theorem main_shape (o f : Option String) (cin : List Byte) (stale : List Byte) :
    Shape (main r o f cin stale).trace := by
  simp only [main, try_block]
  cases hinit : r.init with
  | thrown e =>
    rcases handler_trace [] e with ⟨dg, h, -⟩ | ⟨h, -⟩
    · rw [h]; exact Shape.init_throw dg
    · rw [h]; exact Shape.init_uncaught
  | value st₀ => exact while_getline_shape r _ _ _ st₀ stale

end shape

/-! ## Consequences of the shape, for every run -/

theorem shape_disconnect_le_one (t : List Event) (h : Shape t) :
    t.countP is_disconnect ≤ 1 := by
  induction h with
  | block o f d n rid re le output stale w hadm hw ih =>
    simpa [List.countP_cons, is_disconnect] using ih
  | _ => simp [List.countP_cons, is_disconnect]

/-! ## Consequences of the shape, for runs in which every completion brings its buffer -/

section run

variable {σ : Type} (r : replicant_client σ) (o f : Option String) (cin : List Byte)
  (stale : List Byte)

end run

/-! ## The calls of `send` and the end of the run -/

section more

variable {σ : Type} (r : replicant_client σ) (object function : String)

/-- The loop body calls `send` once, with the configured names and the line
followed by a NUL as payload. -/
theorem submitted_loop_body (st : σ) (stale : List Byte) (s : List Byte) :
    submitted (loop_body r object function st stale s).1 =
      [(object, function, s ++ [NUL], s.length + 1)] := by
  rcases path_exists r object function st s with
    ⟨e, hs⟩ | ⟨a, hs, hn⟩ | ⟨a, e, hs, ha, hl⟩ | ⟨a, b, hs, ha, hl, hn⟩ |
    ⟨a, b, hs, ha, hl, hn, hne⟩ | ⟨a, b, hs, ha, hl, he, hre⟩ |
    ⟨a, b, hs, ha, hl, he, hre⟩
  · rw [loop_body_send_throw r object function st stale s e hs]; rfl
  · rw [loop_body_send_failed r object function st stale s a hs hn]; rfl
  · rw [loop_body_loop_throw r object function st stale s a e hs ha hl]; rfl
  · rw [loop_body_loop_failed r object function st stale s a b hs ha hl hn]; rfl
  · rw [loop_body_mismatch r object function st stale s a b hs ha hl hn hne]; rfl
  · rw [loop_body_remote_failed r object function st stale s a b hs ha hl he hre]; rfl
  · rw [loop_body_success r object function st stale s a b hs ha hl he hre]; rfl

/-- The calls of `send` in the loop are for the lines read, in order. -/
theorem submitted_while_getline (lines : List (List Byte)) :
    ∀ (st : σ) (stale : List Byte),
      submitted (while_getline r object function st stale lines).1 <+:
        lines.map (fun s => (object, function, s ++ [NUL], s.length + 1)) := by
  induction lines with
  | nil => intro st stale; exact List.prefix_refl _
  | cons s rest ih =>
    intro st stale
    rcases while_getline_cons r object function st stale s rest with
      ⟨a, b, -, -, -, -, -, -, -, hw⟩ | ⟨hw, -, -⟩
    · rw [hw]
      simp only [submitted_append, submitted_loop_body, List.map_cons, List.singleton_append]
      exact (List.prefix_cons_inj _).mpr (ih b.next _)
    · rw [hw, submitted_loop_body, List.map_cons]
      exact ⟨_, rfl⟩

/-- The first line of the loop is submitted. -/
theorem submitted_while_getline_head (st : σ) (stale : List Byte) (s : List Byte)
    (rest : List (List Byte)) :
    [(object, function, s ++ [NUL], s.length + 1)] <+:
      submitted (while_getline r object function st stale (s :: rest)).1 := by
  obtain ⟨t, ht⟩ := loop_body_extends r object function st stale s rest
  rw [← ht, submitted_append, submitted_loop_body]
  exact List.prefix_append _ _

/-- When the loop reaches the end of input, `send` was called for every line. -/
theorem submitted_while_getline_complete (lines : List (List Byte)) :
    ∀ (st st' : σ) (stale stale' : List Byte) (tr : List Event),
      while_getline r object function st stale lines = (tr, Step.continue st' stale') →
      submitted tr = lines.map (fun s => (object, function, s ++ [NUL], s.length + 1)) := by
  induction lines with
  | nil =>
    intro st st' stale stale' tr h
    simp only [while_getline, Prod.mk.injEq] at h
    rw [← h.1]; rfl
  | cons s rest ih =>
    intro st st' stale stale' tr h
    obtain ⟨a, b, tr', -, -, -, -, -, -, hrest, htr⟩ :=
      while_getline_continue_inv r object function st st' stale stale' s rest tr h
    rw [htr, submitted_append, ih b.next st' _ stale' tr' hrest]
    rfl

/-- When the calls for the lines `pre` all succeed, the run over `pre ++ s :: post`
submits every line of `pre` and then `s`. -/
theorem submitted_after_successes (pre : List (List Byte)) (s : List Byte)
    (post : List (List Byte)) (st st' : σ) (stale : List Byte)
    (outputs : List (Option (List Byte)))
    (h : all_succeed r object function st pre = some (outputs, st')) :
    (pre ++ [s]).map (fun s => (object, function, s ++ [NUL], s.length + 1)) <+:
      submitted (while_getline r object function st stale (pre ++ s :: post)).1 := by
  obtain ⟨stale', hk⟩ :=
    (while_getline_all_succeed r object function pre st st' stale).mpr ⟨outputs, h⟩
  have hw : while_getline r object function st stale pre =
      ((while_getline r object function st stale pre).1, Step.continue st' stale') :=
    Prod.ext rfl hk
  rw [while_getline_append r object function pre (s :: post) st st' stale stale' _ hw,
    submitted_append,
    submitted_while_getline_complete r object function pre st st' stale stale' _ hw,
    List.map_append]
  exact (List.prefix_append_right_inj _).mpr
    (submitted_while_getline_head r object function st' stale' s post)

end more

theorem getlines_from_no_newline (cin : List Byte) :
    ∀ acc : List Byte, NL ∉ acc → ∀ s ∈ getlines_from acc cin, NL ∉ s := by
  induction cin with
  | nil =>
    intro acc hacc s hs
    simp only [getlines_from] at hs
    split at hs
    · simp at hs
    · simp only [List.mem_singleton] at hs
      rw [hs]; exact hacc
  | cons c cs ih =>
    intro acc hacc s hs
    simp only [getlines_from] at hs
    split at hs
    · rcases List.mem_cons.mp hs with h | h
      · rw [h]; exact hacc
      · exact ih [] (by simp) s h
    · rename_i hc
      refine ih (acc ++ [c]) ?_ s hs
      simp only [List.mem_append, List.mem_singleton, not_or]
      exact ⟨hacc, fun h => hc h.symm⟩

section run

variable {σ : Type} (r : replicant_client σ) (o f : Option String) (cin : List Byte)
  (stale : List Byte)

/-- C7: with the session established, (1) the exit status is `EXIT_SUCCESS` exactly
when the call for every line of the input succeeds (`send` admits it, `loop`
returns its id, its status is `REPLICANT_SUCCESS`) and `disconnect` then returns
`REPLICANT_SUCCESS`; (2) when the calls for all lines succeed, so that the end of
input is reached, the trace is the events of the lines, with one call of `send`
per line, then the call of `disconnect` and at most a diagnostic: `disconnect` is
called exactly once, after every release, and a status other than
`REPLICANT_SUCCESS` gives `EXIT_FAILURE`; (3) on empty input the run consists of
the call of `disconnect` and the diagnostic it may lead to, without any call of
`send` or `loop`. -/
theorem exit_status_and_disconnect (st₀ : σ) (hinit : r.init = Ret.value st₀) :
    ((main r o f cin stale).status = some EXIT_SUCCESS ↔
      ∃ (outputs : List (Option (List Byte))) (st st' : σ),
        all_succeed r (o.getD _object) (f.getD _function) st₀ (getlines cin) =
          some (outputs, st) ∧
        r.disconnect st = Ret.value (REPLICANT_SUCCESS, st')) ∧
    (∀ (outputs : List (Option (List Byte))) (st : σ),
      all_succeed r (o.getD _object) (f.getD _function) st₀ (getlines cin) =
        some (outputs, st) →
      (∃ (tr : List Event) (d : Event) (rest : List Event),
        (main r o f cin stale).trace = tr ++ d :: rest ∧
        is_disconnect d = true ∧ (rest = [] ∨ ∃ dg, rest = [Event.cerr dg]) ∧
        tr.countP is_disconnect = 0 ∧
        (submitted tr).length = (getlines cin).length ∧
        released (main r o f cin stale).trace = released tr) ∧
      (main r o f cin stale).trace.countP is_disconnect = 1 ∧
      (∀ (e : replicant_returncode) (st' : σ), r.disconnect st = Ret.value (e, st') →
        e ≠ REPLICANT_SUCCESS → (main r o f cin stale).status = some EXIT_FAILURE)) ∧
    (getlines cin = [] →
      (∀ (e : replicant_returncode) (st' : σ), r.disconnect st₀ = Ret.value (e, st') →
        main r o f cin stale =
          if e = REPLICANT_SUCCESS then ⟨[Event.disconnect e], some EXIT_SUCCESS⟩
          else ⟨[Event.disconnect e,
            Event.cerr (Diagnostic.error_disconnecting (r.last_error_desc st') e)],
            some EXIT_FAILURE⟩) ∧
      (∀ e : Exn, r.disconnect st₀ = Ret.thrown e →
        main r o f cin stale = handler [Event.disconnect_throw e] e) ∧
      submitted (main r o f cin stale).trace = [] ∧
      loop_timeouts (main r o f cin stale).trace = []) ∧
    EXIT_SUCCESS = 0 ∧ EXIT_FAILURE ≠ 0 := by
  have hm : main r o f cin stale =
      after_loop r
        (while_getline r (o.getD _object) (f.getD _function) st₀ stale (getlines cin)).1
        (while_getline r (o.getD _object) (f.getD _function) st₀ stale (getlines cin)).2 := by
    simp only [main, try_block, hinit]
  refine ⟨⟨?_, ?_⟩, ?_, ?_, rfl, by decide⟩
  · intro h
    rw [hm] at h
    obtain ⟨st', stale', st'', hk, hd⟩ := after_loop_success r _ _ _ st₀ stale h
    obtain ⟨outputs, ha⟩ :=
      (while_getline_all_succeed r _ _ (getlines cin) st₀ st' stale).mp ⟨stale', hk⟩
    exact ⟨outputs, st', st'', ha, hd⟩
  · rintro ⟨outputs, st, st', ha, hd⟩
    obtain ⟨stale', hk⟩ :=
      (while_getline_all_succeed r _ _ (getlines cin) st₀ st stale).mpr ⟨outputs, ha⟩
    rw [hm, hk]
    simp [after_loop, hd]
  · intro outputs st ha
    obtain ⟨stale', hk⟩ :=
      (while_getline_all_succeed r _ _ (getlines cin) st₀ st stale).mpr ⟨outputs, ha⟩
    have hw : while_getline r (o.getD _object) (f.getD _function) st₀ stale (getlines cin) =
        ((while_getline r (o.getD _object) (f.getD _function) st₀ stale (getlines cin)).1,
          Step.continue st stale') := Prod.ext rfl hk
    rw [hk] at hm
    obtain ⟨d, rest, ht, hdis, hrest⟩ := after_loop_continue r
      (while_getline r (o.getD _object) (f.getD _function) st₀ stale (getlines cin)).1 st stale'
    have hshape := shape_disconnect_le_one _ (main_shape r o f cin stale)
    have htrace : (main r o f cin stale).trace =
        (while_getline r (o.getD _object) (f.getD _function) st₀ stale (getlines cin)).1 ++
          d :: rest := by rw [hm, ht]
    have hcount := hshape
    rw [htrace, List.countP_append, List.countP_cons_of_pos _ _ hdis] at hcount
    refine ⟨⟨_, d, rest, htrace, hdis, hrest, by omega, ?_, ?_⟩, ?_, ?_⟩
    · rw [submitted_while_getline_complete r _ _ _ st₀ st stale stale' _ hw, List.length_map]
    · rw [hm]; exact (after_loop_projections r _ _).2.2.2.1
    · rw [htrace, List.countP_append, List.countP_cons_of_pos _ _ hdis]
      omega
    · intro e st' hd he
      rw [hm]
      simp [after_loop, hd, he]
  · intro hnil
    rw [hnil] at hm
    simp only [while_getline] at hm
    refine ⟨?_, ?_, ?_, ?_⟩
    · intro e st' hd
      rw [hm]
      by_cases he : e = REPLICANT_SUCCESS <;> simp [after_loop, hd, he]
    · intro e hd
      rw [hm]
      simp [after_loop, hd]
    · rw [hm, (after_loop_projections r _ _).1]; rfl
    · rw [hm, (after_loop_projections r _ _).2.1]; rfl

/-- C9: (1) the calls of `send` of a run are for lines read from standard input, in
order and at most one per line: each carries the configured object and function
names, the same for every line, and as payload the bytes of the line followed by
one NUL, with declared length one more than the line's.  (2) With the session
established, a line is submitted as soon as the calls for all lines before it have
succeeded; in particular the first line always is.  (3) A run that ends with
`EXIT_SUCCESS` has submitted every line.  (4) No line contains the newline that
ended it.  (5) Without options the names are `"echo"` and `"func"`, and the line
"hello" is submitted as the six bytes of "hello" and a NUL.  (6) On every path the
loop body calls `send` exactly once, for its line. -/
theorem submit_carries_line :
    submitted (main r o f cin stale).trace <+:
      (getlines cin).map
        (fun s => (o.getD _object, f.getD _function, s ++ [NUL], s.length + 1)) ∧
    (∀ (st₀ st : σ) (pre : List (List Byte)) (s : List Byte) (post : List (List Byte))
      (outputs : List (Option (List Byte))),
      r.init = Ret.value st₀ → getlines cin = pre ++ s :: post →
      all_succeed r (o.getD _object) (f.getD _function) st₀ pre = some (outputs, st) →
      (pre ++ [s]).map
          (fun s => (o.getD _object, f.getD _function, s ++ [NUL], s.length + 1)) <+:
        submitted (main r o f cin stale).trace) ∧
    ((main r o f cin stale).status = some EXIT_SUCCESS →
      submitted (main r o f cin stale).trace =
        (getlines cin).map
          (fun s => (o.getD _object, f.getD _function, s ++ [NUL], s.length + 1))) ∧
    (∀ s ∈ getlines cin, NL ∉ s ∧ (s ++ [NUL]).length = s.length + 1) ∧
    ((none : Option String).getD _object = "echo" ∧
      (none : Option String).getD _function = "func" ∧
      submitted (main (script_client ⟨[(1, nothing)], [(1, none, ok hello)],
          REPLICANT_SUCCESS, ""⟩) none none (hello ++ [NL]) []).trace =
        [("echo", "func", [104, 101, 108, 108, 111, 0], 6)]) ∧
    (∀ (st : σ) (stale' : List Byte) (s : List Byte),
      submitted (loop_body r (o.getD _object) (f.getD _function) st stale' s).1 =
        [(o.getD _object, f.getD _function, s ++ [NUL], s.length + 1)]) := by
  refine ⟨?_, ?_, ?_, ?_, ⟨rfl, rfl, by decide⟩, submitted_loop_body r _ _⟩
  · simp only [main, try_block]
    cases hinit : r.init with
    | thrown e =>
      rcases handler_trace [] e with ⟨dg, h, -⟩ | ⟨h, -⟩
      · rw [h]; exact ⟨_, List.nil_append _⟩
      · rw [h]; exact ⟨_, List.nil_append _⟩
    | value st₀ =>
      simp only
      rw [(after_loop_projections r _ _).1]
      exact submitted_while_getline r _ _ _ st₀ stale
  · intro st₀ st pre s post outputs hinit hin ha
    simp only [main, try_block, hinit, hin]
    rw [(after_loop_projections r _ _).1]
    exact submitted_after_successes r _ _ pre s post st₀ st stale outputs ha
  · simp only [main, try_block]
    cases hinit : r.init with
    | thrown e =>
      intro h
      exact absurd h (handler_status _ e)
    | value st₀ =>
      simp only
      intro h
      obtain ⟨st', stale', st'', hk, -⟩ := after_loop_success r _ _ _ st₀ stale h
      rw [(after_loop_projections r _ _).1]
      exact submitted_while_getline_complete r _ _ _ st₀ st' stale stale' _ (Prod.ext rfl hk)
  · intro s hs
    exact ⟨getlines_from_no_newline cin [] (by simp) s hs, by simp⟩

end run

/-! ## The status reported by `loop` is not consulted -/

section le

variable {σ : Type} (r : replicant_client σ) (x : σ → Int → Option replicant_returncode)
  (object function : String)

theorem loop_body_with_le (st : σ) (stale : List Byte) (s : List Byte) :
    (loop_body (with_le x r) object function st stale s).2 =
      (loop_body r object function st stale s).2 ∧
    (loop_body (with_le x r) object function st stale s).1.map forget_le =
      (loop_body r object function st stale s).1.map forget_le := by
  simp only [loop_body, with_le]
  cases hs : r.send st object function (s ++ [NUL]) (s.length + 1) with
  | thrown e => exact ⟨rfl, rfl⟩
  | value a =>
    simp only
    by_cases hn : a.rid < 0
    · simp only [hn, if_true, and_self]
    · simp only [hn, if_false]
      cases hl : r.loop a.next (-1) with
      | thrown e => exact ⟨rfl, rfl⟩
      | value b =>
        simp only
        by_cases hb : 0 ≤ b.lid
        · have hb' : ¬ b.lid < 0 := not_lt.mpr hb
          simp only [hb, if_true, hb', if_false]
          by_cases hne : a.rid ≠ b.lid
          · simp [hne, forget_le, hb]
          · simp only [hne, if_false]
            by_cases hre : b.stores.status.getD (a.stores.status.getD REPLICANT_GARBAGE) ≠
                REPLICANT_SUCCESS
            · simp [hre, forget_le, hb]
            · simp [hre, forget_le, hb]
        · have hb' : b.lid < 0 := not_le.mp hb
          simp only [hb, if_false, hb', if_true, and_self]

end le

theorem stdout_forget_le (t : List Event) : stdout (t.map forget_le) = stdout t := by
  induction t with
  | nil => rfl
  | cons e t ih =>
    cases e with
    | loop t' lid le re out =>
      by_cases h : 0 ≤ lid <;> simp [forget_le, h, stdout, ih]
    | _ => simp [forget_le, stdout, ih]

theorem stderr_forget_le (t : List Event) : stderr (t.map forget_le) = stderr t := by
  induction t with
  | nil => rfl
  | cons e t ih =>
    cases e with
    | loop t' lid le re out =>
      by_cases h : 0 ≤ lid <;> simp [forget_le, h, stderr, ih]
    | _ => simp [forget_le, stderr, ih]

theorem released_forget_le (t : List Event) : released (t.map forget_le) = released t := by
  induction t with
  | nil => rfl
  | cons e t ih =>
    cases e with
    | loop t' lid le re out =>
      by_cases h : 0 ≤ lid <;> simp [forget_le, h, released, ih]
    | _ => simp [forget_le, released, ih]

section le

variable {σ : Type} (r : replicant_client σ) (x : σ → Int → Option replicant_returncode)
  (object function : String)

theorem while_getline_with_le (lines : List (List Byte)) :
    ∀ (st : σ) (stale : List Byte),
      (while_getline (with_le x r) object function st stale lines).2 =
        (while_getline r object function st stale lines).2 ∧
      (while_getline (with_le x r) object function st stale lines).1.map forget_le =
        (while_getline r object function st stale lines).1.map forget_le := by
  induction lines with
  | nil => intro st stale; exact ⟨rfl, rfl⟩
  | cons s rest ih =>
    intro st stale
    obtain ⟨h2, h1⟩ := loop_body_with_le r x object function st stale s
    rcases hb' : loop_body (with_le x r) object function st stale s with ⟨ev', k'⟩
    rcases hb : loop_body r object function st stale s with ⟨ev, k⟩
    rw [hb', hb] at h1 h2
    simp only at h1 h2
    subst h2
    cases k' with
    | «continue» st' stale' =>
      rw [while_getline_continue _ object function st st' stale stale' s rest ev' hb',
        while_getline_continue _ object function st st' stale stale' s rest ev hb]
      obtain ⟨i2, i1⟩ := ih st' stale'
      exact ⟨i2, by simp only [List.map_append, h1, i1]⟩
    | «return» code =>
      rw [while_getline_return _ object function st stale s rest ev' code hb',
        while_getline_return _ object function st stale s rest ev code hb]
      exact ⟨rfl, h1⟩
    | throw e =>
      rw [while_getline_throw _ object function st stale s rest ev' e hb',
        while_getline_throw _ object function st stale s rest ev e hb]
      exact ⟨rfl, h1⟩

theorem handler_map (tr tr' : List Event) (e : Exn)
    (h : tr.map forget_le = tr'.map forget_le) :
    (handler tr e).trace.map forget_le = (handler tr' e).trace.map forget_le ∧
    (handler tr e).status = (handler tr' e).status := by
  cases e <;> simp [handler, h]

theorem after_loop_with_le (tr tr' : List Event) (k : Step σ)
    (h : tr.map forget_le = tr'.map forget_le) :
    (after_loop (with_le x r) tr k).trace.map forget_le =
      (after_loop r tr' k).trace.map forget_le ∧
    (after_loop (with_le x r) tr k).status = (after_loop r tr' k).status := by
  cases k with
  | «continue» st stale =>
    simp only [after_loop, with_le]
    cases hd : r.disconnect st with
    | thrown e =>
      exact handler_map _ _ e (by simp only [List.map_append, h])
    | value p =>
      obtain ⟨e, st'⟩ := p
      by_cases he : e = REPLICANT_SUCCESS <;> simp [he, h]
  | «return» code => exact ⟨h, rfl⟩
  | throw e => exact handler_map _ _ e h

theorem main_with_le (o f : Option String) (cin : List Byte) (stale : List Byte) :
    (main (with_le x r) o f cin stale).trace.map forget_le =
      (main r o f cin stale).trace.map forget_le ∧
    (main (with_le x r) o f cin stale).status = (main r o f cin stale).status := by
  simp only [main, try_block]
  have hi : (with_le x r).init = r.init := rfl
  rw [hi]
  cases r.init with
  | thrown e => exact ⟨rfl, rfl⟩
  | value st₀ =>
    simp only
    obtain ⟨h2, h1⟩ := while_getline_with_le r x (o.getD _object) (f.getD _function)
      (getlines cin) st₀ stale
    rw [h2]
    exact after_loop_with_le r x _ _ _ h1

end le

section run

variable {σ : Type} (r : replicant_client σ) (o f : Option String) (cin : List Byte)
  (stale : List Byte)

/-- C10: the status `le` that `loop` reports together with a non-negative id has no
influence on the run.  Replacing it, in any way that may depend on the library's
state and on the timeout, changes nothing in the trace but that status itself:
standard output, standard error, the released buffers and the exit status are the
same.  Whether a line succeeds is decided by the status stored in the request's own
slot `re`: a completion with `le` a failure code and `re = REPLICANT_SUCCESS` still
prints the buffer. -/
theorem loop_status_not_consulted (x : σ → Int → Option replicant_returncode) :
    (main (with_le x r) o f cin stale).trace.map forget_le =
      (main r o f cin stale).trace.map forget_le ∧
    stdout (main (with_le x r) o f cin stale).trace = stdout (main r o f cin stale).trace ∧
    stderr (main (with_le x r) o f cin stale).trace = stderr (main r o f cin stale).trace ∧
    released (main (with_le x r) o f cin stale).trace =
      released (main r o f cin stale).trace ∧
    (main (with_le x r) o f cin stale).status = (main r o f cin stale).status ∧
    main (script_client ⟨[(1, nothing)], [(1, some (other 1), ok hello)],
        REPLICANT_SUCCESS, ""⟩) none none (hello ++ [NL]) [] =
      ⟨[Event.send "echo" "func" (hello ++ [NUL]) 6 1 REPLICANT_GARBAGE,
        Event.loop (-1) 1 (other 1) REPLICANT_SUCCESS (some hello),
        Event.copy_output hello, Event.cout (hello ++ [NL]), Event.destroy_output hello,
        Event.disconnect REPLICANT_SUCCESS], some EXIT_SUCCESS⟩ := by
  obtain ⟨h1, h2⟩ := main_with_le r x o f cin stale
  refine ⟨h1, ?_, ?_, ?_, h2, by decide⟩
  · rw [← stdout_forget_le, h1, stdout_forget_le]
  · rw [← stderr_forget_le, h1, stderr_forget_le]
  · rw [← released_forget_le, h1, released_forget_le]

end run

/-! ## Concrete runs -/

/-- Second line "hi" of the input "hello\nhi": the first call succeeds, the
second `send` returns `-1` with status `other 3`. -/
theorem send_failure_ends_run_witness :
    main (script_client ⟨[(1, nothing), (-1, ⟨some (other 3), none⟩)], [(1, none, ok hello)],
        REPLICANT_SUCCESS, "down"⟩) none none (hello ++ [NL] ++ hi) [] =
      ⟨[Event.send "echo" "func" (hello ++ [NUL]) 6 1 REPLICANT_GARBAGE,
        Event.loop (-1) 1 REPLICANT_GARBAGE REPLICANT_SUCCESS (some hello),
        Event.copy_output hello, Event.cout (hello ++ [NL]), Event.destroy_output hello,
        Event.send "echo" "func" (hi ++ [NUL]) 3 (-1) (other 3),
        Event.cerr (Diagnostic.could_not_send "down" (other 3))],
        some EXIT_FAILURE⟩ :=
  (send_failure_ends_run
    (script_client ⟨[(1, nothing), (-1, ⟨some (other 3), none⟩)], [(1, none, ok hello)],
      REPLICANT_SUCCESS, "down"⟩) none none (hello ++ [NL] ++ hi) []
    [Event.send "echo" "func" (hello ++ [NUL]) 6 1 REPLICANT_GARBAGE,
      Event.loop (-1) 1 REPLICANT_GARBAGE REPLICANT_SUCCESS (some hello),
      Event.copy_output hello, Event.cout (hello ++ [NL]), Event.destroy_output hello]
    ⟨[(-1, ⟨some (other 3), none⟩)], [], REPLICANT_SUCCESS, "down"⟩ hello hi []
    ⟨-1, ⟨some (other 3), none⟩, ⟨[], [], REPLICANT_SUCCESS, "down"⟩⟩
    ⟨_, [hello], rfl, rfl, rfl⟩ rfl (by decide)).1

/-- The awaited id is 1 and `loop` returns id 3 with `REPLICANT_SUCCESS` and a
buffer: the run ends with the internal-error diagnostic. -/
theorem mismatch_ends_run_witness :
    main (script_client ⟨[(1, nothing)], [(3, some REPLICANT_SUCCESS, ok hello)],
        REPLICANT_SUCCESS, "x"⟩) none none (hello ++ [NL]) [] =
      ⟨[Event.send "echo" "func" (hello ++ [NUL]) 6 1 REPLICANT_GARBAGE,
        Event.loop (-1) 3 REPLICANT_SUCCESS REPLICANT_SUCCESS (some hello),
        Event.cerr Diagnostic.internal_error],
        some EXIT_FAILURE⟩ ∧
    stdout (main (script_client ⟨[(1, nothing)], [(3, some REPLICANT_SUCCESS, ok hello)],
        REPLICANT_SUCCESS, "x"⟩) none none (hello ++ [NL]) []).trace = [] :=
  have h := mismatch_ends_run
    (script_client ⟨[(1, nothing)], [(3, some REPLICANT_SUCCESS, ok hello)],
      REPLICANT_SUCCESS, "x"⟩) none none (hello ++ [NL]) [] []
    ⟨[(1, nothing)], [(3, some REPLICANT_SUCCESS, ok hello)], REPLICANT_SUCCESS, "x"⟩ []
    hello []
    ⟨1, nothing, ⟨[], [(3, some REPLICANT_SUCCESS, ok hello)], REPLICANT_SUCCESS, "x"⟩⟩
    ⟨3, some REPLICANT_SUCCESS, ok hello, ⟨[], [], REPLICANT_SUCCESS, "x"⟩⟩
    ⟨_, [], rfl, rfl, rfl⟩ rfl (by decide) rfl (by decide) (by decide)
  ⟨h.1, h.2.2.1⟩

/-- The call is admitted with id 7 and `loop` returns id 7 with the failure status
`other 1` and no buffer. -/
theorem remote_failure_ends_run_witness :
    main (script_client ⟨[(7, nothing)], [(7, some (other 1), ⟨some (other 1), none⟩)],
        REPLICANT_SUCCESS, "remote failure"⟩) none none (hello ++ [NL]) [] =
      ⟨[Event.send "echo" "func" (hello ++ [NUL]) 6 7 REPLICANT_GARBAGE,
        Event.loop (-1) 7 (other 1) (other 1) none,
        Event.cerr (Diagnostic.could_not_process "remote failure" (other 1))],
        some EXIT_FAILURE⟩ :=
  (remote_failure_ends_run
    (script_client ⟨[(7, nothing)], [(7, some (other 1), ⟨some (other 1), none⟩)],
      REPLICANT_SUCCESS, "remote failure"⟩) none none (hello ++ [NL]) [] []
    ⟨[(7, nothing)], [(7, some (other 1), ⟨some (other 1), none⟩)], REPLICANT_SUCCESS,
      "remote failure"⟩ [] hello []
    ⟨7, nothing, ⟨[], [(7, some (other 1), ⟨some (other 1), none⟩)], REPLICANT_SUCCESS,
      "remote failure"⟩⟩
    ⟨7, some (other 1), ⟨some (other 1), none⟩, ⟨[], [], REPLICANT_SUCCESS, "remote failure"⟩⟩
    ⟨_, [], rfl, rfl, rfl⟩ rfl (by decide) rfl rfl (by decide)).1

/-- The call is admitted with id 1 and `loop` returns `-1` with status `other 2`. -/
theorem loop_called_once_and_failure_ends_run_witness :
    loop_timeouts (loop_body (script_client ⟨[(1, nothing)], [(-1, some (other 2), nothing)],
        REPLICANT_SUCCESS, "lost"⟩) "echo" "func"
        ⟨[(1, nothing)], [(-1, some (other 2), nothing)], REPLICANT_SUCCESS, "lost"⟩ []
        hello).1
      = [-1] ∧
    main (script_client ⟨[(1, nothing)], [(-1, some (other 2), nothing)],
        REPLICANT_SUCCESS, "lost"⟩) none none (hello ++ [NL]) [] =
      ⟨[Event.send "echo" "func" (hello ++ [NUL]) 6 1 REPLICANT_GARBAGE,
        Event.loop (-1) (-1) (other 2) REPLICANT_GARBAGE none,
        Event.cerr (Diagnostic.could_not_loop "lost" (other 2))],
        some EXIT_FAILURE⟩ :=
  have h := loop_called_once_and_failure_ends_run
    (script_client ⟨[(1, nothing)], [(-1, some (other 2), nothing)],
      REPLICANT_SUCCESS, "lost"⟩) none none (hello ++ [NL]) [] []
    ⟨[(1, nothing)], [(-1, some (other 2), nothing)], REPLICANT_SUCCESS, "lost"⟩ [] hello []
    ⟨1, nothing, ⟨[], [(-1, some (other 2), nothing)], REPLICANT_SUCCESS, "lost"⟩⟩
    ⟨_, [], rfl, rfl, rfl⟩ rfl (by decide)
  ⟨h.1, (h.2.2 ⟨-1, some (other 2), nothing, ⟨[], [], REPLICANT_SUCCESS, "lost"⟩⟩ rfl
    (by decide)).1⟩

/-- The line "hello" is admitted with id 1 and `loop` returns id 1 with
`REPLICANT_SUCCESS` and the buffer "hello". -/
theorem success_prints_result_witness :
    loop_body (script_client ⟨[(1, nothing)], [(1, none, ok hello)], REPLICANT_SUCCESS, ""⟩)
        "echo" "func" ⟨[(1, nothing)], [(1, none, ok hello)], REPLICANT_SUCCESS, ""⟩ []
        hello =
      ([Event.send "echo" "func" (hello ++ [NUL]) 6 1 REPLICANT_GARBAGE,
        Event.loop (-1) 1 REPLICANT_GARBAGE REPLICANT_SUCCESS (some hello),
        Event.copy_output hello, Event.cout (hello ++ [NL]), Event.destroy_output hello],
        Step.continue ⟨[], [], REPLICANT_SUCCESS, ""⟩ hello) ∧
    stdout ([] ++ (loop_body (script_client ⟨[(1, nothing)], [(1, none, ok hello)],
        REPLICANT_SUCCESS, ""⟩) "echo" "func"
        ⟨[(1, nothing)], [(1, none, ok hello)], REPLICANT_SUCCESS, ""⟩ [] hello).1) =
      stdout [] ++ (hello ++ [NL]) ∧
    stdout (main (script_client ⟨[(1, nothing)], [(1, none, ok hello)],
        REPLICANT_SUCCESS, ""⟩) none none (hello ++ [NL]) []).trace = hello ++ [NL] :=
  have h := success_prints_result
    (script_client ⟨[(1, nothing)], [(1, none, ok hello)], REPLICANT_SUCCESS, ""⟩)
    none none (hello ++ [NL]) [] []
    ⟨[(1, nothing)], [(1, none, ok hello)], REPLICANT_SUCCESS, ""⟩ [] hello []
    ⟨1, nothing, ⟨[], [(1, none, ok hello)], REPLICANT_SUCCESS, ""⟩⟩
    ⟨1, none, ok hello, ⟨[], [], REPLICANT_SUCCESS, ""⟩⟩ hello
    ⟨_, [], rfl, rfl, rfl⟩ rfl (by decide) rfl rfl rfl rfl
  ⟨h.1, h.2.2.1,
    h.2.2.2.2 ⟨[(1, nothing)], [(1, none, ok hello)], REPLICANT_SUCCESS, ""⟩
      ⟨[], [], REPLICANT_SUCCESS, ""⟩ [hello] rfl rfl⟩

/-- Two lines, both successful, and `disconnect` returns `REPLICANT_SUCCESS`: the
exit status is `EXIT_SUCCESS`. -/
theorem exit_status_and_disconnect_witness :
    (main (script_client two_line_script) none none (hello ++ [NL] ++ hi ++ [NL]) []).status =
      some EXIT_SUCCESS :=
  (exit_status_and_disconnect (script_client two_line_script) none none
    (hello ++ [NL] ++ hi ++ [NL]) [] two_line_script rfl).1.mpr
    ⟨[some hello, some hi], ⟨[], [], REPLICANT_SUCCESS, ""⟩, ⟨[], [], REPLICANT_SUCCESS, ""⟩,
      by decide, rfl⟩

/-- The line "hello" with the default names: its call of `send` carries "echo",
"func" and the six bytes of "hello" and a NUL; and in the input "hello\nhi" the
second line is submitted once the first call has succeeded. -/
theorem submit_carries_line_witness :
    [("echo", "func", [104, 101, 108, 108, 111, 0], 6), ("echo", "func", [104, 105, 0], 3)] <+:
      submitted (main (script_client two_line_script) none none (hello ++ [NL] ++ hi) []).trace :=
  (submit_carries_line (script_client two_line_script) none none (hello ++ [NL] ++ hi) []).2.1
    two_line_script ⟨[(2, nothing)], [(2, none, ok hi)], REPLICANT_SUCCESS, ""⟩
    [hello] hi [] [some hello] rfl rfl (by decide)

end Replicant
